import Mathlib

/-!
BaseUnits: derived-unit composition and the quantity engine

A shallow embedding of `src/core/derivedUnits.h`, `src/core/quantity.h` and
`src/core/printUnits.h`.

The C++ code is a set of class templates.  A tag type becomes a value of `Tag`,
a class template becomes a function from its template arguments, and a program
that does not compile (an ambiguous specialization, a wrong number of template
arguments, a failed `static_assert`, ill-formed `std::ratio` arithmetic)
becomes `none`.
-/

namespace units

/-! ## Tags (`derivedUnits.h`, lines 13-26) -/

/-- A tag type usable as `BASE_TAG`: a user-declared struct (identified by the
name it was declared with), `productTag<PRODS...>` or `ratioTag<NUM, DENOM>`.
As in the source, the arguments of `productTag` and `ratioTag` are arbitrary
types, so nested tags exist as values. -/
inductive Tag where
  | primitive (name : String)
  | productTag (PRODS : List Tag)
  | ratioTag (NUM DENOM : Tag)

namespace Tag

mutual
/-- Type identity of tags (`std::is_same`), decided structurally. -/
def decEq : (a b : Tag) → Decidable (a = b)
  | primitive x, primitive y =>
    if h : x = y then isTrue (by rw [h]) else isFalse (fun e => h (by cases e; rfl))
  | productTag xs, productTag ys =>
    match decEqList xs ys with
    | isTrue h => isTrue (by rw [h])
    | isFalse h => isFalse (fun e => h (by cases e; rfl))
  | ratioTag n d, ratioTag m e =>
    match decEq n m, decEq d e with
    | isTrue h₁, isTrue h₂ => isTrue (by rw [h₁, h₂])
    | isFalse h₁, _ => isFalse (fun e => h₁ (by cases e; rfl))
    | _, isFalse h₂ => isFalse (fun e => h₂ (by cases e; rfl))
  | primitive _, productTag _ => isFalse (fun e => by cases e)
  | primitive _, ratioTag _ _ => isFalse (fun e => by cases e)
  | productTag _, primitive _ => isFalse (fun e => by cases e)
  | productTag _, ratioTag _ _ => isFalse (fun e => by cases e)
  | ratioTag _ _, primitive _ => isFalse (fun e => by cases e)
  | ratioTag _ _, productTag _ => isFalse (fun e => by cases e)
/-- Type identity of template argument lists. -/
def decEqList : (as bs : List Tag) → Decidable (as = bs)
  | [], [] => isTrue rfl
  | a :: as, b :: bs =>
    match decEq a b, decEqList as bs with
    | isTrue h₁, isTrue h₂ => isTrue (by rw [h₁, h₂])
    | isFalse h₁, _ => isFalse (fun e => h₁ (by cases e; rfl))
    | _, isFalse h₂ => isFalse (fun e => h₂ (by cases e; rfl))
  | [], _ :: _ => isFalse (fun e => by cases e)
  | _ :: _, [] => isFalse (fun e => by cases e)
end

instance : DecidableEq Tag := decEq

/-- The pack `X...` deduced when a tag is matched against `productTag<X...>`. -/
def pack : Tag → List Tag
  | productTag xs => xs
  | _ => []

/-- The pack `NUM...` deduced when a tag is matched against
`ratioTag<productTag<NUM...>, productTag<DENOM...>>`. -/
def numPack : Tag → List Tag
  | ratioTag (productTag ns) (productTag _) => ns
  | _ => []

/-- The pack `DENOM...` deduced when a tag is matched against
`ratioTag<productTag<NUM...>, productTag<DENOM...>>`. -/
def denomPack : Tag → List Tag
  | ratioTag (productTag _) (productTag ds) => ds
  | _ => []

end Tag

/-! ## Selection of a partial specialization

Every partial specialization of `buildProduct` and `buildRatio` constrains each
of its two arguments in one of three ways. -/

/-- The form of one template argument in a partial specialization. -/
inductive ArgPattern where
  /-- Pattern `class LHS`: any type. -/
  | any
  /-- Pattern `productTag<LHS...>`. -/
  | product
  /-- Pattern `ratioTag<productTag<LHS_NUM...>, productTag<LHS_DENOM...>>`. -/
  | ratio
  deriving DecidableEq

namespace ArgPattern

/-- Template argument deduction of one argument against one pattern. -/
def accepts : ArgPattern → Tag → Bool
  | any, _ => true
  | product, Tag.productTag _ => true
  | ratio, Tag.ratioTag (Tag.productTag _) (Tag.productTag _) => true
  | _, _ => false

/-- Pattern `p` is at least as specialized as `q`: every argument `p` accepts
is deduced by `q` as well. -/
def atLeastAsSpecialized (p q : ArgPattern) : Bool :=
  q == any || p == q

end ArgPattern

/-- Outcome of choosing among a primary template and its partial
specializations, indexed by `ρ`. -/
inductive Selection (ρ : Type) where
  /-- No partial specialization matches: the primary template is used. -/
  | primary
  /-- One matching specialization is more specialized than all other matching ones. -/
  | specialization (rule : ρ)
  /-- Several match and none is more specialized than all the others: ill-formed. -/
  | ambiguous
  deriving DecidableEq

/-- Specialization `s` is more specialized than `t` (partial ordering of class
template specializations), given the argument patterns of each. -/
def moreSpecialized {ρ : Type} (lhs rhs : ρ → ArgPattern) (s t : ρ) : Bool :=
  ((lhs s).atLeastAsSpecialized (lhs t) && (rhs s).atLeastAsSpecialized (rhs t)) &&
    !((lhs t).atLeastAsSpecialized (lhs s) && (rhs t).atLeastAsSpecialized (rhs s))

/-- Class template partial specialization matching for a two-parameter template
whose specializations are `rules`: collect the specializations that match
`<A, B>`; with none, use the primary template; otherwise the one that is more
specialized than every other matching one, and the use is ambiguous when there
is no such one. -/
def select {ρ : Type} [DecidableEq ρ] (rules : List ρ) (lhs rhs : ρ → ArgPattern)
    (A B : Tag) : Selection ρ :=
  let matching := rules.filter (fun r => (lhs r).accepts A && (rhs r).accepts B)
  match matching with
  | [] => Selection.primary
  | _ =>
    match matching.filter (fun s => matching.all (fun t => decide (t = s) || moreSpecialized lhs rhs s t)) with
    | [s] => Selection.specialization s
    | _ => Selection.ambiguous

/-! ## `buildProduct` (`derivedUnits.h`, lines 28-83) -/

/-- The eight partial specializations of `buildProduct`, in source order. -/
inductive ProductRule where
  /-- Specialization `buildProduct<productTag<LHS...>, productTag<RHS...>>`, line 38. -/
  | product_product
  /-- Specialization `buildProduct<ratioTag<..>, productTag<RHS...>>`, line 44. -/
  | ratio_product
  /-- Specialization `buildProduct<productTag<LHS...>, ratioTag<..>>`, line 50. -/
  | product_ratio
  /-- Specialization `buildProduct<ratioTag<..>, ratioTag<..>>`, line 56. -/
  | ratio_ratio
  /-- Specialization `buildProduct<LHS, productTag<RHS...>>`, line 62. -/
  | any_product
  /-- Specialization `buildProduct<productTag<LHS...>, RHS>`, line 68. -/
  | product_any
  /-- Specialization `buildProduct<LHS, ratioTag<..>>`, line 74. -/
  | any_ratio
  /-- Specialization `buildProduct<ratioTag<..>, RHS>`, line 80. -/
  | ratio_any
  deriving DecidableEq

namespace ProductRule

/-- All partial specializations of `buildProduct`. -/
def all : List ProductRule :=
  [product_product, ratio_product, product_ratio, ratio_ratio,
   any_product, product_any, any_ratio, ratio_any]

/-- Pattern of the first template argument. -/
def lhs : ProductRule → ArgPattern
  | product_product => ArgPattern.product
  | ratio_product => ArgPattern.ratio
  | product_ratio => ArgPattern.product
  | ratio_ratio => ArgPattern.ratio
  | any_product => ArgPattern.any
  | product_any => ArgPattern.product
  | any_ratio => ArgPattern.any
  | ratio_any => ArgPattern.ratio

/-- Pattern of the second template argument. -/
def rhs : ProductRule → ArgPattern
  | product_product => ArgPattern.product
  | ratio_product => ArgPattern.product
  | product_ratio => ArgPattern.ratio
  | ratio_ratio => ArgPattern.ratio
  | any_product => ArgPattern.product
  | product_any => ArgPattern.any
  | any_ratio => ArgPattern.ratio
  | ratio_any => ArgPattern.any

/-- The member `result` of each specialization, written with the deduced packs. -/
def result : ProductRule → Tag → Tag → Tag
  | product_product, LHS, RHS =>
    Tag.productTag (LHS.pack ++ RHS.pack)
  | ratio_product, LHS, RHS =>
    Tag.ratioTag (Tag.productTag (LHS.numPack ++ RHS.pack)) (Tag.productTag LHS.denomPack)
  | product_ratio, LHS, RHS =>
    Tag.ratioTag (Tag.productTag (LHS.pack ++ RHS.numPack)) (Tag.productTag RHS.denomPack)
  | ratio_ratio, LHS, RHS =>
    Tag.ratioTag (Tag.productTag (LHS.numPack ++ RHS.numPack))
      (Tag.productTag (LHS.denomPack ++ RHS.denomPack))
  | any_product, LHS, RHS =>
    Tag.productTag (LHS :: RHS.pack)
  | product_any, LHS, RHS =>
    Tag.productTag (LHS.pack ++ [RHS])
  | any_ratio, LHS, RHS =>
    Tag.ratioTag (Tag.productTag (LHS :: RHS.numPack)) (Tag.productTag RHS.denomPack)
  | ratio_any, LHS, RHS =>
    Tag.ratioTag (Tag.productTag (LHS.numPack ++ [RHS])) (Tag.productTag LHS.denomPack)

end ProductRule

/-- Which definition of `buildProduct` the compiler uses for `buildProduct<A, B>`. -/
def selectProduct (A B : Tag) : Selection ProductRule :=
  select ProductRule.all ProductRule.lhs ProductRule.rhs A B

/-- The type `buildProduct<args...>::result`.  `buildProduct` has exactly two
template parameters, so any other number of arguments is ill-formed. -/
def buildProduct : List Tag → Option Tag
  | [LHS, RHS] =>
    match selectProduct LHS RHS with
    | Selection.primary => some (Tag.productTag [LHS, RHS])
    | Selection.specialization r => some (r.result LHS RHS)
    | Selection.ambiguous => none
  | _ => none

/-! ## `buildRatio` (`derivedUnits.h`, lines 85-140) -/

/-- The eight partial specializations of `buildRatio`, in source order. -/
inductive RatioRule where
  /-- Specialization `buildRatio<productTag<LHS...>, productTag<RHS...>>`, line 94. -/
  | product_product
  /-- Specialization `buildRatio<productTag<LHS...>, ratioTag<..>>`, line 100. -/
  | product_ratio
  /-- Specialization `buildRatio<ratioTag<..>, productTag<RHS...>>`, line 106. -/
  | ratio_product
  /-- Specialization `buildRatio<ratioTag<..>, ratioTag<..>>`, line 112. -/
  | ratio_ratio
  /-- Specialization `buildRatio<LHS, productTag<RHS...>>`, line 119. -/
  | any_product
  /-- Specialization `buildRatio<productTag<LHS...>, RHS>`, line 125. -/
  | product_any
  /-- Specialization `buildRatio<LHS, ratioTag<..>>`, line 131. -/
  | any_ratio
  /-- Specialization `buildRatio<ratioTag<..>, RHS>`, line 137. -/
  | ratio_any
  deriving DecidableEq

namespace RatioRule

/-- All partial specializations of `buildRatio`. -/
def all : List RatioRule :=
  [product_product, product_ratio, ratio_product, ratio_ratio,
   any_product, product_any, any_ratio, ratio_any]

/-- Pattern of the first template argument. -/
def lhs : RatioRule → ArgPattern
  | product_product => ArgPattern.product
  | product_ratio => ArgPattern.product
  | ratio_product => ArgPattern.ratio
  | ratio_ratio => ArgPattern.ratio
  | any_product => ArgPattern.any
  | product_any => ArgPattern.product
  | any_ratio => ArgPattern.any
  | ratio_any => ArgPattern.ratio

/-- Pattern of the second template argument. -/
def rhs : RatioRule → ArgPattern
  | product_product => ArgPattern.product
  | product_ratio => ArgPattern.ratio
  | ratio_product => ArgPattern.product
  | ratio_ratio => ArgPattern.ratio
  | any_product => ArgPattern.product
  | product_any => ArgPattern.any
  | any_ratio => ArgPattern.ratio
  | ratio_any => ArgPattern.any

/-- The member `result` of each specialization, written with the deduced packs.
The last two name `typename buildProduct<...>::result` with a pack expansion
among the arguments, so they have a result only when that instantiation has. -/
def result : RatioRule → Tag → Tag → Option Tag
  | product_product, LHS, RHS =>
    some (Tag.ratioTag (Tag.productTag LHS.pack) (Tag.productTag RHS.pack))
  | product_ratio, LHS, RHS =>
    some (Tag.ratioTag (Tag.productTag (LHS.pack ++ RHS.denomPack)) (Tag.productTag RHS.numPack))
  | ratio_product, LHS, RHS =>
    some (Tag.ratioTag (Tag.productTag LHS.numPack) (Tag.productTag (LHS.denomPack ++ RHS.pack)))
  | ratio_ratio, LHS, RHS =>
    some (Tag.ratioTag (Tag.productTag (LHS.numPack ++ RHS.denomPack))
      (Tag.productTag (LHS.denomPack ++ RHS.numPack)))
  | any_product, LHS, RHS =>
    some (Tag.ratioTag (Tag.productTag [LHS]) (Tag.productTag RHS.pack))
  | product_any, LHS, RHS =>
    some (Tag.ratioTag (Tag.productTag LHS.pack) (Tag.productTag [RHS]))
  | any_ratio, LHS, RHS =>
    (buildProduct (LHS :: RHS.denomPack)).map
      (fun num => Tag.ratioTag num (Tag.productTag RHS.numPack))
  | ratio_any, LHS, RHS =>
    (buildProduct (LHS.denomPack ++ [RHS])).map
      (fun denom => Tag.ratioTag (Tag.productTag LHS.numPack) denom)

end RatioRule

/-- Which definition of `buildRatio` the compiler uses for `buildRatio<A, B>`. -/
def selectRatio (A B : Tag) : Selection RatioRule :=
  select RatioRule.all RatioRule.lhs RatioRule.rhs A B

/-- The type `buildRatio<args...>::result`.  `buildRatio` has exactly two
template parameters. -/
def buildRatio : List Tag → Option Tag
  | [LHS, RHS] =>
    match selectRatio LHS RHS with
    | Selection.primary => some (Tag.ratioTag (Tag.productTag [LHS]) (Tag.productTag [RHS]))
    | Selection.specialization r => r.result LHS RHS
    | Selection.ambiguous => none
  | _ => none

/-! ## Shapes of identifiers, as the specification names them -/

namespace Tag

/-- A primitive identifier: a declared unit, neither a product nor a ratio. -/
def isPrimitive : Tag → Bool
  | primitive _ => true
  | _ => false

/-- A flat Product: a `productTag` all of whose factors are primitive. -/
def isFlatProduct : Tag → Bool
  | productTag xs => xs.all isPrimitive
  | _ => false

/-- A normalized Ratio: a `ratioTag` of two flat Products. -/
def isFlatRatio : Tag → Bool
  | ratioTag (productTag ns) (productTag ds) => ns.all isPrimitive && ds.all isPrimitive
  | _ => false

/-- Normal form: a primitive, a flat Product, or a Ratio of two flat Products. -/
def isNormal (t : Tag) : Bool :=
  t.isPrimitive || t.isFlatProduct || t.isFlatRatio

/-- A `ratioTag` whose numerator and denominator are both `productTag`s. -/
def isRatioOfProducts : Tag → Bool
  | ratioTag (productTag _) (productTag _) => true
  | _ => false

/-- The specification's `factors`: `[p]` for a primitive `p`, `xs` for `Product[xs]`. -/
def factors : Tag → List Tag
  | productTag xs => xs
  | t => [t]

/-- The specification's `num`: `[p]` for a primitive, `xs` for `Product[xs]`,
the numerator's factors for a Ratio. -/
def num : Tag → List Tag
  | productTag xs => xs
  | ratioTag n _ => n.pack
  | t => [t]

/-- The specification's `den`: `[]` for a primitive and for a Product, the
denominator's factors for a Ratio. -/
def den : Tag → List Tag
  | ratioTag _ d => d.pack
  | _ => []

end Tag

/-- Identifiers obtained from primitive identifiers by finitely many
applications of `buildProduct` and `buildRatio`. -/
inductive Reachable : Tag → Prop where
  | primitive (name : String) : Reachable (Tag.primitive name)
  | product {A B C : Tag} : Reachable A → Reachable B → buildProduct [A, B] = some C → Reachable C
  | ratio {A B C : Tag} : Reachable A → Reachable B → buildRatio [A, B] = some C → Reachable C

/-! ## The units of `test_units.cpp` -/

/-- The tag `struct MeVTag`, declared by `DECLARE_UNIT(MeV)`. -/
def MeVTag : Tag := Tag.primitive "MeV"

/-- The tag `struct cmTag`, declared by `DECLARE_UNIT(cm)`. -/
def cmTag : Tag := Tag.primitive "cm"

/-- The tag `struct eventsTag`, declared by `DECLARE_UNIT_WITH_TYPE(events, int)`. -/
def eventsTag : Tag := Tag.primitive "events"

end units

/-! ## `std::ratio` (`<ratio>`, used by `quantity.h`)

`quantity.h` takes its scale arithmetic from the C++ standard library.  What
follows is the standard's wording for `std::ratio` and `std::ratio_divide`,
for an implementation that yields the reduced terms whenever they are
representable. -/

namespace std

/-- The largest value of `intmax_t`, taken as 64 bits wide. -/
def INTMAX_MAX : Int := 9223372036854775807

/-- The type `std::ratio<N, D>`, given by its two template arguments. -/
structure ratio where
  N : Int
  D : Int
  deriving DecidableEq

namespace ratio

/-- Naming the members of `std::ratio<N, D>` is ill-formed when `D` is zero or
when the absolute value of `N` or of `D` is not representable by `intmax_t`. -/
def wellFormed (r : ratio) : Bool :=
  decide (r.D ≠ 0) && decide ((r.N.natAbs : Int) ≤ INTMAX_MAX) &&
    decide ((r.D.natAbs : Int) ≤ INTMAX_MAX)

/-- The member `num`: `sign(N) * sign(D) * abs(N) / gcd(N, D)`. -/
def num (r : ratio) : Int :=
  Int.sign r.N * Int.sign r.D * (r.N.natAbs : Int) / (Int.gcd r.N r.D : Int)

/-- The member `den`: `abs(D) / gcd(N, D)`. -/
def den (r : ratio) : Int :=
  (r.D.natAbs : Int) / (Int.gcd r.N r.D : Int)

/-- The rational number a ratio stands for. -/
def value (r : ratio) : ℚ :=
  (r.N : ℚ) / (r.D : ℚ)

end ratio

/-- The type `std::ratio_divide<R1, R2>`: `std::ratio<U, V>` where `U` and `V`
are the `num` and `den` of `std::ratio<R1::num * R2::den, R1::den * R2::num>`.
The program is ill-formed when `R2::num` is zero (the denominator argument is
then zero) or when `U` or `V` is not representable by `intmax_t`. -/
def ratio_divide (R1 R2 : ratio) : Option ratio :=
  let X := R1.num * R2.den
  let Y := R1.den * R2.num
  let U := (ratio.mk X Y).num
  let V := (ratio.mk X Y).den
  if R1.wellFormed && R2.wellFormed && decide (Y ≠ 0) && (ratio.mk U V).wellFormed then
    some (ratio.mk U V)
  else
    none

/-- The type `std::ratio_multiply<R1, R2>`: `std::ratio<U, V>` where `U` and `V`
are the `num` and `den` of `std::ratio<R1::num * R2::num, R1::den * R2::den>`.
The program is ill-formed when `U` or `V` is not representable by `intmax_t`. -/
def ratio_multiply (R1 R2 : ratio) : Option ratio :=
  let X := R1.num * R2.num
  let Y := R1.den * R2.den
  let U := (ratio.mk X Y).num
  let V := (ratio.mk X Y).den
  if R1.wellFormed && R2.wellFormed && (ratio.mk U V).wellFormed then
    some (ratio.mk U V)
  else
    none

/-- The trait `std::is_signed<T>::value` of a representation type. -/
class is_signed (T : Type) where
  value : Bool

/-- The rationals stand for a signed arithmetic type whose arithmetic is exact. -/
instance : is_signed ℚ := ⟨true⟩

/-- The integers stand for a signed integer type such as `int`. -/
instance : is_signed Int := ⟨true⟩

/-- The natural numbers stand for an unsigned integer type such as `unsigned`. -/
instance : is_signed Nat := ⟨false⟩

/-- The SI prefix `std::exa`, `std::ratio<1000000000000000000, 1>`. -/
def exa : ratio := ratio.mk 1000000000000000000 1

/-- The SI prefix `std::atto`, `std::ratio<1, 1000000000000000000>`. -/
def atto : ratio := ratio.mk 1 1000000000000000000

/-- The SI prefix `std::peta`, `std::ratio<1000000000000000, 1>`. -/
def peta : ratio := ratio.mk 1000000000000000 1

/-- The SI prefix `std::femto`, `std::ratio<1, 1000000000000000>`. -/
def femto : ratio := ratio.mk 1 1000000000000000

end std

namespace units

/-! ## `quantity` (`quantity.h`) -/

/-- The function `detail::conversion<CONVERSION, FLOATING_POINT>::do_convert`:
the primary template computes `value * CONVERSION::num / CONVERSION::den`, the
specialization for `CONVERSION = std::ratio<1>` returns `value` itself.  The
operands `CONVERSION::num` and `CONVERSION::den` are brought to
`FLOATING_POINT`, as the usual arithmetic conversions do for a floating-point
type; `do_convert_integral` is the same function for an integer type. -/
def detail.conversion.do_convert {FLOATING_POINT : Type} [Mul FLOATING_POINT]
    [Div FLOATING_POINT] [IntCast FLOATING_POINT] (CONVERSION : std.ratio)
    (value : FLOATING_POINT) : FLOATING_POINT :=
  if CONVERSION = std.ratio.mk 1 1 then
    value
  else
    value * (CONVERSION.num : FLOATING_POINT) / (CONVERSION.den : FLOATING_POINT)

/-- The class `quantity<BASE_TAG, PREFIX, FLOATING_POINT>`: its only data member
is `fValue`. -/
structure quantity (BASE_TAG : Tag) (PREFIX : std.ratio) (FLOATING_POINT : Type) where
  fValue : FLOATING_POINT

namespace quantity

variable {BASE_TAG : Tag} {PREFIX : std.ratio} {FLOATING_POINT : Type}
  [Mul FLOATING_POINT] [Div FLOATING_POINT] [IntCast FLOATING_POINT]

/-- The member `in<OTHER_QUANTITY>()`, where `OTHER_QUANTITY` enters through
its members `tag` and `prefix` only.  The `static_assert` rejects a different
`tag`; otherwise the stored value goes through `do_convert` for
`std::ratio_divide<PREFIX, OTHER_QUANTITY::prefix>`. -/
def in_ (self : quantity BASE_TAG PREFIX FLOATING_POINT) (OTHER_TAG : Tag)
    (OTHER_PREFIX : std.ratio) : Option FLOATING_POINT :=
  if OTHER_TAG = BASE_TAG then
    (std.ratio_divide PREFIX OTHER_PREFIX).map
      (fun CONVERSION => detail.conversion.do_convert CONVERSION self.fValue)
  else
    none

/-- Construction of a `quantity<BASE_TAG, PREFIX, FLOATING_POINT>` from a
quantity `other` of the same `FLOATING_POINT`.  From the very same type it is
the implicit copy constructor; from another `OTHER_PREFIX` over the same
`BASE_TAG` it is the converting constructor, which stores
`other.in<quantity<BASE_TAG, PREFIX, FLOATING_POINT>>()`; from another tag no
constructor is viable. -/
def ofQuantity (BASE_TAG : Tag) (PREFIX : std.ratio) {OTHER_TAG : Tag}
    {OTHER_PREFIX : std.ratio} (other : quantity OTHER_TAG OTHER_PREFIX FLOATING_POINT) :
    Option (quantity BASE_TAG PREFIX FLOATING_POINT) :=
  if OTHER_TAG = BASE_TAG ∧ OTHER_PREFIX = PREFIX then
    some (quantity.mk other.fValue)
  else if OTHER_TAG = BASE_TAG then
    (other.in_ BASE_TAG PREFIX).map quantity.mk
  else
    none

/-- Implicit instantiation of the class `quantity<BASE_TAG, PREFIX, FLOATING_POINT>`.
It instantiates the declarations of all members that are not templates, among
them `operator -()`, whose return type is
`std::enable_if<std::is_signed<FLOATING_POINT>::value, quantity>::type`: that
names a type only for a signed `FLOATING_POINT`. -/
def instantiates (FLOATING_POINT : Type) [std.is_signed FLOATING_POINT] : Bool :=
  std.is_signed.value FLOATING_POINT

/-- The constructor `quantity(const FLOATING_POINT value)`; an object needs the
class to be instantiated. -/
def construct (BASE_TAG : Tag) (PREFIX : std.ratio) [std.is_signed FLOATING_POINT]
    (value : FLOATING_POINT) : Option (quantity BASE_TAG PREFIX FLOATING_POINT) :=
  if instantiates FLOATING_POINT then some (quantity.mk value) else none

/-- The member `operator +`: a template over `OTHER_PREFIX` whose parameter is a
`quantity<BASE_TAG, OTHER_PREFIX, FLOATING_POINT>`, so an argument with another
tag matches no operator.  It returns
`quantity(fValue + other.in<quantity<BASE_TAG, PREFIX, FLOATING_POINT>>())`. -/
def operator_plus [Add FLOATING_POINT] (self : quantity BASE_TAG PREFIX FLOATING_POINT)
    {OTHER_TAG : Tag} {OTHER_PREFIX : std.ratio}
    (other : quantity OTHER_TAG OTHER_PREFIX FLOATING_POINT) :
    Option (quantity BASE_TAG PREFIX FLOATING_POINT) :=
  if OTHER_TAG = BASE_TAG then
    (other.in_ BASE_TAG PREFIX).map (fun converted => quantity.mk (self.fValue + converted))
  else
    none

/-- The member `operator -` with one argument: it returns
`quantity(fValue - other.in<quantity<BASE_TAG, PREFIX, FLOATING_POINT>>())`. -/
def operator_minus [Sub FLOATING_POINT] (self : quantity BASE_TAG PREFIX FLOATING_POINT)
    {OTHER_TAG : Tag} {OTHER_PREFIX : std.ratio}
    (other : quantity OTHER_TAG OTHER_PREFIX FLOATING_POINT) :
    Option (quantity BASE_TAG PREFIX FLOATING_POINT) :=
  if OTHER_TAG = BASE_TAG then
    (other.in_ BASE_TAG PREFIX).map (fun converted => quantity.mk (self.fValue - converted))
  else
    none

/-- The implicit copy assignment from a quantity of the same type: the stored
value of the receiver is replaced. -/
def assign (self rhs : quantity BASE_TAG PREFIX FLOATING_POINT) :
    quantity BASE_TAG PREFIX FLOATING_POINT :=
  { self with fValue := rhs.fValue }

/-- The member `operator +=`, `*this = *this + other; return *this;`, as a step on
the pair of the receiver and the argument object; `other` is passed by value. -/
def operator_plus_assign [Add FLOATING_POINT] {OTHER_TAG : Tag} {OTHER_PREFIX : std.ratio}
    (state : quantity BASE_TAG PREFIX FLOATING_POINT ×
      quantity OTHER_TAG OTHER_PREFIX FLOATING_POINT) :
    Option (quantity BASE_TAG PREFIX FLOATING_POINT ×
      quantity OTHER_TAG OTHER_PREFIX FLOATING_POINT) :=
  (state.1.operator_plus state.2).map (fun sum => (state.1.assign sum, state.2))

/-- The member `operator -=`, `*this = *this - other; return *this;`, as a step on
the pair of the receiver and the argument object; `other` is passed by value. -/
def operator_minus_assign [Sub FLOATING_POINT] {OTHER_TAG : Tag} {OTHER_PREFIX : std.ratio}
    (state : quantity BASE_TAG PREFIX FLOATING_POINT ×
      quantity OTHER_TAG OTHER_PREFIX FLOATING_POINT) :
    Option (quantity BASE_TAG PREFIX FLOATING_POINT ×
      quantity OTHER_TAG OTHER_PREFIX FLOATING_POINT) :=
  (state.1.operator_minus state.2).map (fun difference => (state.1.assign difference, state.2))

/-- The member `operator -()` without argument, `quantity(-fValue)`, whose return
type exists only for a signed `FLOATING_POINT`. -/
def operator_negate [Neg FLOATING_POINT] [std.is_signed FLOATING_POINT]
    (self : quantity BASE_TAG PREFIX FLOATING_POINT) :
    Option (quantity BASE_TAG PREFIX FLOATING_POINT) :=
  if std.is_signed.value FLOATING_POINT then some (quantity.mk (-self.fValue)) else none

/-- The member `operator *`: the result is a
`quantity<buildProduct<BASE_TAG, RHS_UNIT>::result, std::ratio_multiply<PREFIX, OTHER_PREFIX>, FLOATING_POINT>`
holding `fValue * rhs.in<quantity<RHS_UNIT, OTHER_PREFIX, FLOATING_POINT>>()`. -/
def operator_times (self : quantity BASE_TAG PREFIX FLOATING_POINT)
    {RHS_UNIT : Tag} {OTHER_PREFIX : std.ratio}
    (rhs : quantity RHS_UNIT OTHER_PREFIX FLOATING_POINT) :
    Option ((T : Tag) × (Q : std.ratio) × quantity T Q FLOATING_POINT) :=
  match buildProduct [BASE_TAG, RHS_UNIT], std.ratio_multiply PREFIX OTHER_PREFIX,
      rhs.in_ RHS_UNIT OTHER_PREFIX with
  | some T, some Q, some converted => some ⟨T, Q, quantity.mk (self.fValue * converted)⟩
  | _, _, _ => none

/-- The member `operator /`: the result is a
`quantity<buildRatio<BASE_TAG, RHS_UNIT>::result, std::ratio_divide<PREFIX, OTHER_PREFIX>, FLOATING_POINT>`
holding `fValue / rhs.in<quantity<RHS_UNIT, OTHER_PREFIX, FLOATING_POINT>>()`. -/
def operator_divide (self : quantity BASE_TAG PREFIX FLOATING_POINT)
    {RHS_UNIT : Tag} {OTHER_PREFIX : std.ratio}
    (rhs : quantity RHS_UNIT OTHER_PREFIX FLOATING_POINT) :
    Option ((T : Tag) × (Q : std.ratio) × quantity T Q FLOATING_POINT) :=
  match buildRatio [BASE_TAG, RHS_UNIT], std.ratio_divide PREFIX OTHER_PREFIX,
      rhs.in_ RHS_UNIT OTHER_PREFIX with
  | some T, some Q, some converted => some ⟨T, Q, quantity.mk (self.fValue / converted)⟩
  | _, _, _ => none

/-- The member `operator <`:
`fValue < other.in<quantity<BASE_TAG, PREFIX, FLOATING_POINT>>()`. -/
def operator_less [LT FLOATING_POINT] [DecidableRel (fun x y : FLOATING_POINT => x < y)]
    (self : quantity BASE_TAG PREFIX FLOATING_POINT) {OTHER_TAG : Tag}
    {OTHER_PREFIX : std.ratio} (other : quantity OTHER_TAG OTHER_PREFIX FLOATING_POINT) :
    Option Bool :=
  if OTHER_TAG = BASE_TAG then
    (other.in_ BASE_TAG PREFIX).map (fun converted => decide (self.fValue < converted))
  else
    none

/-- The member `operator >`:
`fValue > other.in<quantity<BASE_TAG, PREFIX, FLOATING_POINT>>()`. -/
def operator_greater [LT FLOATING_POINT] [DecidableRel (fun x y : FLOATING_POINT => x < y)]
    (self : quantity BASE_TAG PREFIX FLOATING_POINT) {OTHER_TAG : Tag}
    {OTHER_PREFIX : std.ratio} (other : quantity OTHER_TAG OTHER_PREFIX FLOATING_POINT) :
    Option Bool :=
  if OTHER_TAG = BASE_TAG then
    (other.in_ BASE_TAG PREFIX).map (fun converted => decide (converted < self.fValue))
  else
    none

/-- The member `operator ==`:
`fValue == other.in<quantity<BASE_TAG, PREFIX, FLOATING_POINT>>()`. -/
def operator_equal [DecidableEq FLOATING_POINT]
    (self : quantity BASE_TAG PREFIX FLOATING_POINT) {OTHER_TAG : Tag}
    {OTHER_PREFIX : std.ratio} (other : quantity OTHER_TAG OTHER_PREFIX FLOATING_POINT) :
    Option Bool :=
  if OTHER_TAG = BASE_TAG then
    (other.in_ BASE_TAG PREFIX).map (fun converted => decide (self.fValue = converted))
  else
    none

/-- The member `operator !=`:
`fValue != other.in<quantity<BASE_TAG, PREFIX, FLOATING_POINT>>()`. -/
def operator_not_equal [DecidableEq FLOATING_POINT]
    (self : quantity BASE_TAG PREFIX FLOATING_POINT) {OTHER_TAG : Tag}
    {OTHER_PREFIX : std.ratio} (other : quantity OTHER_TAG OTHER_PREFIX FLOATING_POINT) :
    Option Bool :=
  if OTHER_TAG = BASE_TAG then
    (other.in_ BASE_TAG PREFIX).map (fun converted => decide (self.fValue ≠ converted))
  else
    none

/-- The base-unit magnitude of a quantity over the rationals: the stored value
times the rational number its Scale stands for. -/
def magnitude (self : quantity BASE_TAG PREFIX ℚ) : ℚ :=
  self.fValue * PREFIX.value

end quantity

/-! ## An integer `FLOATING_POINT` (`quantity.h`, lines 37-44 and 146-163)

`DECLARE_UNIT_WITH_TYPE(events, int)` makes `FLOATING_POINT` a signed integer
type.  In `value * CONVERSION::num / CONVERSION::den` the operands
`CONVERSION::num` and `CONVERSION::den` are of type `intmax_t`, so the usual
arithmetic conversions bring `value` to `intmax_t`: product and quotient are
computed in `intmax_t`, the quotient of integers discards the fractional part,
and the `return` converts the result to `FLOATING_POINT`.  A value of the
integer type is an `Int`; `bits` is the width of the type, 32 for `int`. -/

/-- The values of a signed integer type that is `bits` wide. -/
def integral.representable (bits : Nat) (x : Int) : Bool :=
  decide (-(2 ^ (bits - 1)) ≤ x) && decide (x < 2 ^ (bits - 1))

/-- Conversion of an integer to a signed integer type that is `bits` wide: the
value of that type congruent to `x` modulo `2 ^ bits`.  It leaves a
representable `x` unchanged. -/
def integral.convert (bits : Nat) (x : Int) : Int :=
  (x + 2 ^ (bits - 1)) % 2 ^ bits - 2 ^ (bits - 1)

/-- The function `detail::conversion<CONVERSION, FLOATING_POINT>::do_convert` for
a signed integer `FLOATING_POINT` that is `bits` wide.  The primary template
multiplies in `intmax_t` (64 bits; on overflow, which C++ leaves undefined, the
two's-complement result is taken), divides in `intmax_t` with truncation toward
zero, and converts the quotient to `FLOATING_POINT`; the specialization for
`CONVERSION = std::ratio<1>` returns `value` itself. -/
def detail.conversion.do_convert_integral (bits : Nat) (CONVERSION : std.ratio)
    (value : Int) : Int :=
  if CONVERSION = std.ratio.mk 1 1 then
    value
  else
    integral.convert bits
      (Int.tdiv (integral.convert 64 (value * CONVERSION.num)) CONVERSION.den)

namespace quantity

variable {BASE_TAG : Tag} {PREFIX : std.ratio}

/-- The member `in<OTHER_QUANTITY>()` of a quantity over a signed integer type
that is `bits` wide: as `in_`, with the integer `do_convert`. -/
def in_integral (bits : Nat) (self : quantity BASE_TAG PREFIX Int) (OTHER_TAG : Tag)
    (OTHER_PREFIX : std.ratio) : Option Int :=
  if OTHER_TAG = BASE_TAG then
    (std.ratio_divide PREFIX OTHER_PREFIX).map
      (fun CONVERSION => detail.conversion.do_convert_integral bits CONVERSION self.fValue)
  else
    none

/-- The member `operator <` over a signed integer type:
`fValue < other.in<quantity<BASE_TAG, PREFIX, FLOATING_POINT>>()`. -/
def operator_less_integral (bits : Nat) (self : quantity BASE_TAG PREFIX Int)
    {OTHER_TAG : Tag} {OTHER_PREFIX : std.ratio} (other : quantity OTHER_TAG OTHER_PREFIX Int) :
    Option Bool :=
  if OTHER_TAG = BASE_TAG then
    (other.in_integral bits BASE_TAG PREFIX).map (fun converted => decide (self.fValue < converted))
  else
    none

/-- The member `operator >` over a signed integer type:
`fValue > other.in<quantity<BASE_TAG, PREFIX, FLOATING_POINT>>()`. -/
def operator_greater_integral (bits : Nat) (self : quantity BASE_TAG PREFIX Int)
    {OTHER_TAG : Tag} {OTHER_PREFIX : std.ratio} (other : quantity OTHER_TAG OTHER_PREFIX Int) :
    Option Bool :=
  if OTHER_TAG = BASE_TAG then
    (other.in_integral bits BASE_TAG PREFIX).map (fun converted => decide (converted < self.fValue))
  else
    none

/-- The member `operator ==` over a signed integer type:
`fValue == other.in<quantity<BASE_TAG, PREFIX, FLOATING_POINT>>()`. -/
def operator_equal_integral (bits : Nat) (self : quantity BASE_TAG PREFIX Int)
    {OTHER_TAG : Tag} {OTHER_PREFIX : std.ratio} (other : quantity OTHER_TAG OTHER_PREFIX Int) :
    Option Bool :=
  if OTHER_TAG = BASE_TAG then
    (other.in_integral bits BASE_TAG PREFIX).map (fun converted => decide (self.fValue = converted))
  else
    none

end quantity

/-! ## Printing (`printUnits.h`)

The stream is the text written to it so far.  How the standard library writes
a `FLOATING_POINT` is a parameter, `format`. -/

/-- The static member `name` of a tag.  A struct declared by `DECLARE_UNIT` has
it (`static constexpr auto name = #unitName`); the class templates `productTag`
and `ratioTag` declare no such member. -/
def Tag.name : Tag → Option String
  | Tag.primitive name => some name
  | _ => none

/-- The function template `printProduct`, called with an explicit template
argument list.  One argument selects `printProduct<LAST>`, which writes
`LAST::name`.  Two or more select `printProduct<LHS, NEXT, PRODS...>`, which
writes `LHS::name` and `" * "` and goes on with `printProduct<NEXT, PRODS...>`.
For an empty list neither overload is viable. -/
def printProduct (os : String) : List Tag → Option String
  | [] => none
  | [LAST] => LAST.name.map (fun name => os ++ name)
  | LHS :: NEXT :: PRODS =>
    LHS.name.bind (fun name => printProduct (os ++ name ++ " * ") (NEXT :: PRODS))

/-- The three overloads of `operator <<` that take a quantity. -/
inductive InsertOverload where
  /-- Overload for `quantity<BASE_TAG, PREFIX, FLOATING_POINT>`, line 19. -/
  | any
  /-- Overload for `quantity<PRODUCT<PRODS...>, PREFIX, FLOATING_POINT>`, where
  `PRODUCT` is a template template parameter, line 42. -/
  | template_id
  /-- Overload for
  `quantity<ratioTag<productTag<NUM...>, productTag<DENOM...>>, PREFIX, FLOATING_POINT>`,
  line 49. -/
  | ratio
  deriving DecidableEq

/-- Overload resolution for `os << value`.  The first overload is viable for
every tag.  The second is viable when the tag is a specialization of a class
template with type parameters, that is a `productTag` or a `ratioTag`
(`PRODUCT` is then deduced as that template).  The third is viable for a
`ratioTag` of two `productTag`s.  Of the viable overloads the most specialized
is called: the third before the second before the first. -/
def selectInsert : Tag → InsertOverload
  | Tag.ratioTag (Tag.productTag _) (Tag.productTag _) => InsertOverload.ratio
  | Tag.ratioTag _ _ => InsertOverload.template_id
  | Tag.productTag _ => InsertOverload.template_id
  | Tag.primitive _ => InsertOverload.any

/-- The pack `PRODS...` deduced when a tag is matched against `PRODUCT<PRODS...>`:
the template arguments of the tag. -/
def Tag.templateArguments : Tag → List Tag
  | Tag.productTag PRODS => PRODS
  | Tag.ratioTag NUM DENOM => [NUM, DENOM]
  | Tag.primitive _ => []

/-- The expression `os << value` for a quantity.  Each overload first writes
`value.in<quantity<TAG, std::ratio<1>, FLOATING_POINT>>()`.  The first then
writes `" "` and `BASE_TAG::name`; the second writes `" "` and calls
`printProduct<PRODS...>`; the third writes `" ("`, calls `printProduct<NUM...>`,
writes `") / ("`, calls `printProduct<DENOM...>` and writes `")"`. -/
def operator_insert {BASE_TAG : Tag} {PREFIX : std.ratio} {FLOATING_POINT : Type}
    [Mul FLOATING_POINT] [Div FLOATING_POINT] [IntCast FLOATING_POINT]
    (format : FLOATING_POINT → String) (os : String)
    (value : quantity BASE_TAG PREFIX FLOATING_POINT) : Option String :=
  match selectInsert BASE_TAG with
  | InsertOverload.any =>
    (value.in_ BASE_TAG (std.ratio.mk 1 1)).bind (fun number =>
      BASE_TAG.name.map (fun name => os ++ format number ++ " " ++ name))
  | InsertOverload.template_id =>
    (value.in_ BASE_TAG (std.ratio.mk 1 1)).bind (fun number =>
      printProduct (os ++ format number ++ " ") BASE_TAG.templateArguments)
  | InsertOverload.ratio =>
    (value.in_ BASE_TAG (std.ratio.mk 1 1)).bind (fun number =>
      (printProduct (os ++ format number ++ " (") BASE_TAG.numPack).bind (fun os₁ =>
        (printProduct (os₁ ++ ") / (") BASE_TAG.denomPack).map (fun os₂ => os₂ ++ ")")))

/-! ## Supporting lemmas for the unit algebra -/

open Tag

/-- The three normal forms, as shapes. -/
theorem Tag.isNormal_cases {t : Tag} (h : t.isNormal) :
    (∃ p, t = primitive p) ∨ (∃ xs, t = productTag xs ∧ xs.all isPrimitive) ∨
      (∃ ns ds, t = ratioTag (productTag ns) (productTag ds) ∧
        ns.all isPrimitive ∧ ds.all isPrimitive) := by
  cases t with
  | primitive p => exact Or.inl ⟨p, rfl⟩
  | productTag xs =>
    refine Or.inr (Or.inl ⟨xs, rfl, ?_⟩)
    simpa [isNormal, isPrimitive, isFlatProduct, isFlatRatio] using h
  | ratioTag n d =>
    cases n <;> cases d <;> simp [isNormal, isPrimitive, isFlatProduct, isFlatRatio] at h
    rename_i ns ds
    exact Or.inr (Or.inr ⟨ns, ds, rfl, by simpa using h.1, by simpa using h.2⟩)

/-- A `ratioTag` of two `productTag`s of primitives is a normalized Ratio. -/
theorem Tag.isFlatRatio_mk {ns ds : List Tag} (hns : ns.all isPrimitive = true)
    (hds : ds.all isPrimitive = true) :
    (ratioTag (productTag ns) (productTag ds)).isFlatRatio = true := by
  show (ns.all isPrimitive && ds.all isPrimitive) = true
  rw [hns, hds]
  rfl

/-- How a tag is seen by the argument patterns: as a `productTag`, as a
`ratioTag` of two `productTag`s, or as neither. -/
theorem ArgPattern.accepts_cases (t : Tag) :
    (ArgPattern.product.accepts t = false ∧ ArgPattern.ratio.accepts t = false) ∨
    (ArgPattern.product.accepts t = true ∧ ArgPattern.ratio.accepts t = false) ∨
    (ArgPattern.product.accepts t = false ∧ ArgPattern.ratio.accepts t = true) := by
  cases t with
  | primitive p => exact Or.inl ⟨rfl, rfl⟩
  | productTag xs => exact Or.inr (Or.inl ⟨rfl, rfl⟩)
  | ratioTag n d => cases n <;> cases d <;> simp [ArgPattern.accepts]

/-- The specializations of `buildProduct` are never ambiguous, whatever the arguments. -/
theorem selectProduct_ne_ambiguous (A B : Tag) : selectProduct A B ≠ Selection.ambiguous := by
  cases A with
  | primitive a =>
    cases B with
    | primitive b => exact fun h => Selection.noConfusion h
    | productTag ys => exact fun h => Selection.noConfusion h
    | ratioTag m e => cases m <;> cases e <;> exact fun h => Selection.noConfusion h
  | productTag xs =>
    cases B with
    | primitive b => exact fun h => Selection.noConfusion h
    | productTag ys => exact fun h => Selection.noConfusion h
    | ratioTag m e => cases m <;> cases e <;> exact fun h => Selection.noConfusion h
  | ratioTag n d =>
    cases n <;> cases d <;>
    cases B with
    | primitive b => exact fun h => Selection.noConfusion h
    | productTag ys => exact fun h => Selection.noConfusion h
    | ratioTag m e => cases m <;> cases e <;> exact fun h => Selection.noConfusion h

/-- The specializations of `buildRatio` are never ambiguous, whatever the arguments. -/
theorem selectRatio_ne_ambiguous (A B : Tag) : selectRatio A B ≠ Selection.ambiguous := by
  cases A with
  | primitive a =>
    cases B with
    | primitive b => exact fun h => Selection.noConfusion h
    | productTag ys => exact fun h => Selection.noConfusion h
    | ratioTag m e => cases m <;> cases e <;> exact fun h => Selection.noConfusion h
  | productTag xs =>
    cases B with
    | primitive b => exact fun h => Selection.noConfusion h
    | productTag ys => exact fun h => Selection.noConfusion h
    | ratioTag m e => cases m <;> cases e <;> exact fun h => Selection.noConfusion h
  | ratioTag n d =>
    cases n <;> cases d <;>
    cases B with
    | primitive b => exact fun h => Selection.noConfusion h
    | productTag ys => exact fun h => Selection.noConfusion h
    | ratioTag m e => cases m <;> cases e <;> exact fun h => Selection.noConfusion h

/-- The type `buildProduct<A, B>::result` exists for every two tags. -/
theorem buildProduct_isSome (A B : Tag) : (buildProduct [A, B]).isSome = true := by
  have h := selectProduct_ne_ambiguous A B
  cases hs : selectProduct A B with
  | primary => simp [buildProduct, hs]
  | specialization r => simp [buildProduct, hs]
  | ambiguous => exact absurd hs h

/-- Unfolding: `buildRatio<primitive, ratioTag<productTag<NUM...>, productTag<DENOM...>>>`
instantiates `buildProduct<LHS, DENOM...>`. -/
theorem buildRatio_primitive_ratio (a : String) (ns ds : List Tag) :
    buildRatio [primitive a, ratioTag (productTag ns) (productTag ds)] =
      (buildProduct (primitive a :: ds)).map (fun num => ratioTag num (productTag ns)) := rfl

/-- Unfolding: `buildRatio<ratioTag<productTag<NUM...>, productTag<DENOM...>>, primitive>`
instantiates `buildProduct<DENOM..., RHS>`. -/
theorem buildRatio_ratio_primitive (b : String) (ns ds : List Tag) :
    buildRatio [ratioTag (productTag ns) (productTag ds), primitive b] =
      (buildProduct (ds ++ [primitive b])).map (fun denom => ratioTag (productTag ns) denom) := rfl

/-- Instantiating `buildProduct` with a number of template arguments other than two is ill-formed. -/
theorem buildProduct_eq_none_of_length {args : List Tag} (h : args.length ≠ 2) :
    buildProduct args = none := by
  match args, h with
  | [], _ => rfl
  | [_], _ => rfl
  | [_, _], h => exact absurd rfl h
  | _ :: _ :: _ :: _, _ => rfl

/-- Preservation: `buildProduct` keeps normal forms normal. -/
theorem buildProduct_isNormal {A B C : Tag} (hA : A.isNormal) (hB : B.isNormal)
    (h : buildProduct [A, B] = some C) : C.isNormal := by
  rcases Tag.isNormal_cases hA with ⟨a, rfl⟩ | ⟨xs, rfl, hxs⟩ | ⟨ns, ds, rfl, hns, hds⟩ <;>
  rcases Tag.isNormal_cases hB with ⟨b, rfl⟩ | ⟨ys, rfl, hys⟩ | ⟨ms, es, rfl, hms, hes⟩ <;>
  · change some _ = some C at h
    cases h
    simp_all [isNormal, isPrimitive, isFlatProduct, isFlatRatio, Tag.pack, Tag.numPack,
      Tag.denomPack, ProductRule.result, List.all_append]

/-- Preservation: `buildRatio` keeps normal forms normal, whenever it has a result. -/
theorem buildRatio_isNormal {A B C : Tag} (hA : A.isNormal) (hB : B.isNormal)
    (h : buildRatio [A, B] = some C) : C.isNormal := by
  rcases Tag.isNormal_cases hA with ⟨a, rfl⟩ | ⟨xs, rfl, hxs⟩ | ⟨ns, ds, rfl, hns, hds⟩ <;>
  rcases Tag.isNormal_cases hB with ⟨b, rfl⟩ | ⟨ys, rfl, hys⟩ | ⟨ms, es, rfl, hms, hes⟩
  any_goals
    first
    | (rw [buildRatio_primitive_ratio] at h
       rcases es with _ | ⟨e, _ | ⟨e', es'⟩⟩
       · exact Option.noConfusion h
       · cases e <;> simp [isPrimitive] at hes
         change some _ = some C at h
         cases h
         simp_all [isNormal, isPrimitive, isFlatProduct, isFlatRatio]
       · exact Option.noConfusion h)
    | (rw [buildRatio_ratio_primitive] at h
       rcases ds with _ | ⟨d, _ | ⟨d', ds'⟩⟩
       · exact Option.noConfusion h
       · cases d <;> simp [isPrimitive] at hds
         change some _ = some C at h
         cases h
         simp_all [isNormal, isPrimitive, isFlatProduct, isFlatRatio]
       · rw [buildProduct_eq_none_of_length (by simp)] at h
         exact Option.noConfusion h)
    | (change some _ = some C at h
       cases h
       simp_all [isNormal, isPrimitive, isFlatProduct, isFlatRatio, Tag.pack, Tag.numPack,
         Tag.denomPack, List.all_append])

/-- No result: `buildRatio<primitive, ratioTag<..>>` has none once the divisor's
denominator has two factors or more. -/
theorem buildRatio_primitive_ratio_eq_none (a : String) (ns ds : List Tag)
    (h : 2 ≤ ds.length) :
    buildRatio [primitive a, ratioTag (productTag ns) (productTag ds)] = none := by
  rw [buildRatio_primitive_ratio, buildProduct_eq_none_of_length]
  · rfl
  · simp only [List.length_cons]; omega

/-- No result: `buildRatio<ratioTag<..>, primitive>` has none once the dividend's
denominator has two factors or more. -/
theorem buildRatio_ratio_primitive_eq_none (b : String) (ns ds : List Tag)
    (h : 2 ≤ ds.length) :
    buildRatio [ratioTag (productTag ns) (productTag ds), primitive b] = none := by
  rw [buildRatio_ratio_primitive, buildProduct_eq_none_of_length]
  · rfl
  · simp only [List.length_append, List.length_cons, List.length_nil]; omega

/-- Dividing a primitive by a primitive never cancels, also when both are the same. -/
theorem buildRatio_primitive_primitive (a b : String) :
    buildRatio [primitive a, primitive b] =
      some (ratioTag (productTag [primitive a]) (productTag [primitive b])) := rfl

/-- Whenever `buildRatio` has a result on normal forms, the result is a
`ratioTag` of two `productTag`s. -/
theorem buildRatio_isRatioOfProducts {A B C : Tag} (hA : A.isNormal) (hB : B.isNormal)
    (h : buildRatio [A, B] = some C) : C.isRatioOfProducts := by
  have hC := buildRatio_isNormal hA hB h
  rcases Tag.isNormal_cases hA with ⟨a, rfl⟩ | ⟨xs, rfl, hxs⟩ | ⟨ns, ds, rfl, hns, hds⟩ <;>
  rcases Tag.isNormal_cases hB with ⟨b, rfl⟩ | ⟨ys, rfl, hys⟩ | ⟨ms, es, rfl, hms, hes⟩
  any_goals
    first
    | (rw [buildRatio_primitive_ratio] at h
       rcases es with _ | ⟨e, _ | ⟨e', es'⟩⟩
       · exact Option.noConfusion h
       · cases e <;> simp [isPrimitive] at hes
         change some _ = some C at h
         cases h
         rfl
       · rw [buildProduct_eq_none_of_length (by simp)] at h
         exact Option.noConfusion h)
    | (rw [buildRatio_ratio_primitive] at h
       rcases ds with _ | ⟨d, _ | ⟨d', ds'⟩⟩
       · exact Option.noConfusion h
       · cases d <;> simp [isPrimitive] at hds
         change some _ = some C at h
         cases h
         rfl
       · rw [buildProduct_eq_none_of_length (by simp)] at h
         exact Option.noConfusion h)
    | (change some _ = some C at h
       cases h
       rfl)

/-! ## Claims about the unit algebra -/

/-- C1: `buildRatio` of a primitive by a normalized Ratio is claimed to resolve
for a denominator of any length; at `MeV / ((MeV / cm) / cm)`, where the
divisor is itself produced by `buildRatio` and has the two-factor denominator
`cm, cm`, the specialization for `<LHS, ratioTag<..>>` is selected, it
instantiates `buildProduct<MeVTag, cmTag, cmTag>` with three arguments, and
`buildRatio` has no result. -/
theorem C1_buildRatio_primitive_by_ratio_no_result :
    buildRatio [ratioTag (productTag [MeVTag]) (productTag [cmTag]), cmTag] =
        some (ratioTag (productTag [MeVTag]) (productTag [cmTag, cmTag])) ∧
      selectRatio MeVTag (ratioTag (productTag [MeVTag]) (productTag [cmTag, cmTag])) =
        Selection.specialization RatioRule.any_ratio ∧
      buildProduct [MeVTag, cmTag, cmTag] = none ∧
      buildRatio [MeVTag, ratioTag (productTag [MeVTag]) (productTag [cmTag, cmTag])] = none := by
  refine ⟨rfl, rfl, rfl, rfl⟩

/-- C2: `buildRatio` of a normalized Ratio by a primitive is claimed to resolve
for a denominator of any length; at `((MeV / cm) / cm) / cm`, where the
dividend has the two-factor denominator `cm, cm`, the specialization for
`<ratioTag<..>, RHS>` is selected, it instantiates
`buildProduct<cmTag, cmTag, cmTag>` with three arguments, and `buildRatio` has
no result. -/
theorem C2_buildRatio_ratio_by_primitive_no_result :
    selectRatio (ratioTag (productTag [MeVTag]) (productTag [cmTag, cmTag])) cmTag =
        Selection.specialization RatioRule.ratio_any ∧
      buildProduct [cmTag, cmTag, cmTag] = none ∧
      buildRatio [ratioTag (productTag [MeVTag]) (productTag [cmTag, cmTag]), cmTag] = none := by
  refine ⟨rfl, rfl, rfl⟩

/-- C3: closure is claimed for both operations on every pair of identifiers
the engine can produce; for the reachable pair `cm` and `(MeV / cm) / MeV`
`buildProduct` resolves in both orders and exactly one specialization of
`buildRatio` is selected in both orders, yet `buildRatio` has no result in
either order. -/
theorem C3_closure_fails_for_buildRatio :
    Reachable cmTag ∧
      Reachable (ratioTag (productTag [MeVTag]) (productTag [cmTag, MeVTag])) ∧
      (buildProduct [cmTag, ratioTag (productTag [MeVTag]) (productTag [cmTag, MeVTag])]).isSome ∧
      (buildProduct [ratioTag (productTag [MeVTag]) (productTag [cmTag, MeVTag]), cmTag]).isSome ∧
      selectRatio cmTag (ratioTag (productTag [MeVTag]) (productTag [cmTag, MeVTag])) =
        Selection.specialization RatioRule.any_ratio ∧
      selectRatio (ratioTag (productTag [MeVTag]) (productTag [cmTag, MeVTag])) cmTag =
        Selection.specialization RatioRule.ratio_any ∧
      buildRatio [cmTag, ratioTag (productTag [MeVTag]) (productTag [cmTag, MeVTag])] = none ∧
      buildRatio [ratioTag (productTag [MeVTag]) (productTag [cmTag, MeVTag]), cmTag] = none := by
  have hMeV : Reachable MeVTag := Reachable.primitive "MeV"
  have hcm : Reachable cmTag := Reachable.primitive "cm"
  have h₁ : Reachable (ratioTag (productTag [MeVTag]) (productTag [cmTag])) :=
    Reachable.ratio hMeV hcm rfl
  exact ⟨hcm, Reachable.ratio h₁ hMeV rfl, rfl, rfl, rfl, rfl, rfl, rfl⟩

/-- C4: on operands that are each a primitive or a flat Product,
`buildProduct` yields the Product of the left operand's factors followed by the
right operand's factors, in order. -/
theorem C4_buildProduct_ratio_free (A B : Tag)
    (hA : A.isPrimitive ∨ A.isFlatProduct) (hB : B.isPrimitive ∨ B.isFlatProduct) :
    buildProduct [A, B] = some (productTag (A.factors ++ B.factors)) := by
  cases A with
  | ratioTag n d => simp [isPrimitive, isFlatProduct] at hA
  | primitive a =>
    cases B with
    | ratioTag m e => simp [isPrimitive, isFlatProduct] at hB
    | primitive b => rfl
    | productTag ys => rfl
  | productTag xs =>
    cases B with
    | ratioTag m e => simp [isPrimitive, isFlatProduct] at hB
    | primitive b => rfl
    | productTag ys => rfl

/-- C4 at the product of five types of `test_units.cpp`: `(dx*ke*thirdDistance*dx) * dx`. -/
theorem C4_buildProduct_ratio_free_witness :
    ((productTag [cmTag, MeVTag, cmTag, cmTag]).isPrimitive ∨
        (productTag [cmTag, MeVTag, cmTag, cmTag]).isFlatProduct) ∧
      (cmTag.isPrimitive ∨ cmTag.isFlatProduct) ∧
      buildProduct [productTag [cmTag, MeVTag, cmTag, cmTag], cmTag] =
        some (productTag ((productTag [cmTag, MeVTag, cmTag, cmTag]).factors ++ cmTag.factors)) :=
  ⟨by decide, by decide, C4_buildProduct_ratio_free _ _ (by decide) (by decide)⟩

/-- C5: when at least one of two normalized operands is a Ratio,
`buildProduct` yields the Ratio whose numerator is the numerators' factors,
left operand first, and whose denominator is the denominators' factors, left
operand first. -/
theorem C5_buildProduct_with_ratio (A B : Tag) (hA : A.isNormal) (hB : B.isNormal)
    (hR : A.isFlatRatio ∨ B.isFlatRatio) :
    buildProduct [A, B] =
      some (ratioTag (productTag (A.num ++ B.num)) (productTag (A.den ++ B.den))) := by
  rcases Tag.isNormal_cases hA with ⟨a, rfl⟩ | ⟨xs, rfl, hxs⟩ | ⟨ns, ds, rfl, hns, hds⟩
  · rcases Tag.isNormal_cases hB with ⟨b, rfl⟩ | ⟨ys, rfl, hys⟩ | ⟨ms, es, rfl, hms, hes⟩
    · simp [isFlatRatio] at hR
    · simp [isFlatRatio] at hR
    · simp only [Tag.num, Tag.den, Tag.pack, List.append_nil]; rfl
  · rcases Tag.isNormal_cases hB with ⟨b, rfl⟩ | ⟨ys, rfl, hys⟩ | ⟨ms, es, rfl, hms, hes⟩
    · simp [isFlatRatio] at hR
    · simp [isFlatRatio] at hR
    · simp only [Tag.num, Tag.den, Tag.pack, List.append_nil]; rfl
  · rcases Tag.isNormal_cases hB with ⟨b, rfl⟩ | ⟨ys, rfl, hys⟩ | ⟨ms, es, rfl, hms, hes⟩
    · simp only [Tag.num, Tag.den, Tag.pack, List.append_nil]; rfl
    · simp only [Tag.num, Tag.den, Tag.pack, List.append_nil]; rfl
    · simp only [Tag.num, Tag.den, Tag.pack, List.append_nil]; rfl

/-- C5 at `anotherRatio * dEdx` and at `cm * dEdx` (`test_units.cpp`). -/
theorem C5_buildProduct_with_ratio_witness :
    ((ratioTag (productTag [MeVTag]) (productTag [cmTag])).isNormal ∧
        cmTag.isNormal ∧
        ((ratioTag (productTag [MeVTag]) (productTag [cmTag])).isFlatRatio ∨ cmTag.isFlatRatio)) ∧
      buildProduct [ratioTag (productTag [MeVTag]) (productTag [cmTag]), cmTag] =
        some (ratioTag (productTag [MeVTag, cmTag]) (productTag [cmTag])) :=
  ⟨by decide, C5_buildProduct_with_ratio _ _ (by decide) (by decide) (by decide)⟩

/-- C6: on two normalized operands that are not a primitive with a Ratio (in
either order), `buildRatio` yields the Ratio whose numerator is the dividend's
numerator followed by the divisor's denominator and whose denominator is the
dividend's denominator followed by the divisor's numerator. -/
theorem C6_buildRatio_cross_multiplies (A B : Tag) (hA : A.isNormal) (hB : B.isNormal)
    (h₁ : ¬ (A.isPrimitive ∧ B.isFlatRatio)) (h₂ : ¬ (A.isFlatRatio ∧ B.isPrimitive)) :
    buildRatio [A, B] =
      some (ratioTag (productTag (A.num ++ B.den)) (productTag (A.den ++ B.num))) := by
  rcases Tag.isNormal_cases hA with ⟨a, rfl⟩ | ⟨xs, rfl, hxs⟩ | ⟨ns, ds, rfl, hns, hds⟩
  · rcases Tag.isNormal_cases hB with ⟨b, rfl⟩ | ⟨ys, rfl, hys⟩ | ⟨ms, es, rfl, hms, hes⟩
    · simp only [Tag.num, Tag.den, Tag.pack, List.append_nil]; rfl
    · simp only [Tag.num, Tag.den, Tag.pack, List.append_nil]; rfl
    · exact absurd ⟨rfl, Tag.isFlatRatio_mk hms hes⟩ h₁
  · rcases Tag.isNormal_cases hB with ⟨b, rfl⟩ | ⟨ys, rfl, hys⟩ | ⟨ms, es, rfl, hms, hes⟩
    · simp only [Tag.num, Tag.den, Tag.pack, List.append_nil]; rfl
    · simp only [Tag.num, Tag.den, Tag.pack, List.append_nil]; rfl
    · simp only [Tag.num, Tag.den, Tag.pack, List.append_nil]; rfl
  · rcases Tag.isNormal_cases hB with ⟨b, rfl⟩ | ⟨ys, rfl, hys⟩ | ⟨ms, es, rfl, hms, hes⟩
    · exact absurd ⟨Tag.isFlatRatio_mk hns hds, rfl⟩ h₂
    · simp only [Tag.num, Tag.den, Tag.pack, List.append_nil]; rfl
    · simp only [Tag.num, Tag.den, Tag.pack, List.append_nil]; rfl

/-- C6 at `dEdx / prod` of `test_units.cpp`: a Ratio divided by a Product. -/
theorem C6_buildRatio_cross_multiplies_witness :
    ((ratioTag (productTag [MeVTag]) (productTag [cmTag])).isNormal ∧
        (productTag [cmTag, MeVTag, cmTag, cmTag, cmTag]).isNormal) ∧
      buildRatio [ratioTag (productTag [MeVTag]) (productTag [cmTag]),
          productTag [cmTag, MeVTag, cmTag, cmTag, cmTag]] =
        some (ratioTag (productTag [MeVTag])
          (productTag [cmTag, cmTag, MeVTag, cmTag, cmTag, cmTag])) :=
  ⟨by decide, C6_buildRatio_cross_multiplies _ _ (by decide) (by decide) (by decide) (by decide)⟩

/-- C7: the result of `buildRatio` is claimed to be a Ratio of two Products for
all identifiers; for the reachable pair `MeV` and `(MeV / cm) / (cm * cm)`
`buildRatio` has no result at all, so no Ratio of Products is produced, while
for two primitives (also twice the same one) it is the uncancelled
`Ratio[Product[A], Product[B]]`. -/
theorem C7_buildRatio_no_ratio_of_products :
    Reachable MeVTag ∧
      Reachable (ratioTag (productTag [MeVTag]) (productTag [cmTag, cmTag, cmTag])) ∧
      buildRatio [MeVTag, ratioTag (productTag [MeVTag]) (productTag [cmTag, cmTag, cmTag])]
        = none ∧
      (¬ ∃ C, buildRatio [MeVTag,
          ratioTag (productTag [MeVTag]) (productTag [cmTag, cmTag, cmTag])] = some C ∧
        C.isRatioOfProducts) ∧
      buildRatio [cmTag, cmTag] = some (ratioTag (productTag [cmTag]) (productTag [cmTag])) := by
  have hMeV : Reachable MeVTag := Reachable.primitive "MeV"
  have hcm : Reachable cmTag := Reachable.primitive "cm"
  have h₁ : Reachable (ratioTag (productTag [MeVTag]) (productTag [cmTag])) :=
    Reachable.ratio hMeV hcm rfl
  have h₂ : Reachable (productTag [cmTag, cmTag]) := Reachable.product hcm hcm rfl
  refine ⟨hMeV, Reachable.ratio h₁ h₂ rfl, rfl, ?_, rfl⟩
  rintro ⟨C, hC, -⟩
  exact Option.noConfusion hC

/-- C8: every identifier obtained from primitives by finitely many
applications of `buildProduct` and `buildRatio` is a primitive, a Product of
primitives, or a Ratio of two Products of primitives. -/
theorem C8_reachable_isNormal (t : Tag) (h : Reachable t) : t.isNormal := by
  induction h with
  | primitive name => rfl
  | product _ _ hC ihA ihB => exact buildProduct_isNormal ihA ihB hC
  | ratio _ _ hC ihA ihB => exact buildRatio_isNormal ihA ihB hC

/-- C8 at `(anotherRatio * dEdx) / cm`. -/
theorem C8_reachable_isNormal_witness :
    Reachable (ratioTag (productTag [MeVTag, MeVTag]) (productTag [cmTag, cmTag])) ∧
      (ratioTag (productTag [MeVTag, MeVTag]) (productTag [cmTag, cmTag])).isNormal :=
  have h : Reachable (ratioTag (productTag [MeVTag]) (productTag [cmTag])) :=
    Reachable.ratio (Reachable.primitive "MeV") (Reachable.primitive "cm") rfl
  have h' : Reachable (ratioTag (productTag [MeVTag, MeVTag]) (productTag [cmTag, cmTag])) :=
    Reachable.product h h rfl
  ⟨h', C8_reachable_isNormal _ h'⟩

end units

/-! ## Supporting lemmas for `std::ratio` -/

namespace std

/-- The sign of an integer times the integer is its absolute value. -/
theorem sign_mul_self_eq_natAbs (D : ℤ) : Int.sign D * D = (D.natAbs : ℤ) := by
  rcases lt_trichotomy D 0 with h | h | h
  · rw [Int.sign_eq_neg_one_of_neg h, Int.ofNat_natAbs_of_nonpos h.le]; ring
  · subst h; rfl
  · rw [Int.sign_eq_one_of_pos h, Int.natAbs_of_nonneg h.le]; ring

/-- The members `num` and `den` are the terms of the same rational number as
the template arguments. -/
theorem ratio.num_div_den (r : ratio) (hD : r.D ≠ 0) :
    (r.num : ℚ) / (r.den : ℚ) = r.value := by
  have hg : (Int.gcd r.N r.D : ℤ) ≠ 0 := by
    have h : Int.gcd r.N r.D ≠ 0 := fun h => hD (Int.gcd_eq_zero_iff.mp h).2
    exact_mod_cast h
  have hgq : ((Int.gcd r.N r.D : ℤ) : ℚ) ≠ 0 := by exact_mod_cast hg
  have h₁ : (Int.gcd r.N r.D : ℤ) ∣ (r.N.natAbs : ℤ) := Int.dvd_natAbs.mpr Int.gcd_dvd_left
  have h₂ : (Int.gcd r.N r.D : ℤ) ∣ (r.D.natAbs : ℤ) := Int.dvd_natAbs.mpr Int.gcd_dvd_right
  have h₃ : (Int.gcd r.N r.D : ℤ) ∣ Int.sign r.N * Int.sign r.D * (r.N.natAbs : ℤ) :=
    Dvd.dvd.mul_left h₁ _
  have hDq : (r.D : ℚ) ≠ 0 := by exact_mod_cast hD
  have habs : ((r.D.natAbs : ℤ) : ℚ) ≠ 0 := by
    have : (r.D.natAbs : ℤ) ≠ 0 := by simpa using hD
    exact_mod_cast this
  have key : Int.sign r.N * Int.sign r.D * (r.N.natAbs : ℤ) * r.D = r.N * (r.D.natAbs : ℤ) := by
    calc Int.sign r.N * Int.sign r.D * (r.N.natAbs : ℤ) * r.D
        = (Int.sign r.N * (r.N.natAbs : ℤ)) * (Int.sign r.D * r.D) := by ring
      _ = r.N * (r.D.natAbs : ℤ) := by rw [Int.sign_mul_natAbs, sign_mul_self_eq_natAbs]
  have keyq : ((Int.sign r.N * Int.sign r.D * (r.N.natAbs : ℤ) : ℤ) : ℚ) * (r.D : ℚ)
      = (r.N : ℚ) * ((r.D.natAbs : ℤ) : ℚ) := by exact_mod_cast key
  unfold ratio.num ratio.den ratio.value
  rw [Int.cast_div h₃ hgq, Int.cast_div h₂ hgq]
  rw [div_div_div_cancel_right₀ hgq, div_eq_div_iff habs hDq]
  exact keyq

/-- A well-formed ratio has a nonzero denominator argument. -/
theorem ratio.D_ne_zero_of_wellFormed {r : ratio} (h : r.wellFormed = true) : r.D ≠ 0 := by
  simp only [ratio.wellFormed, Bool.and_eq_true, decide_eq_true_eq] at h
  exact h.1.1

/-- The member `num` of a ratio whose numerator argument is zero is zero. -/
theorem ratio.num_eq_zero_of_N {r : ratio} (h : r.N = 0) : r.num = 0 := by
  simp [ratio.num, h]

/-- When `std::ratio_divide<R1, R2>` is well-formed: both arguments are
well-formed, the divisor is not zero, and the quotient type stands for the
exact quotient of the two rational numbers. -/
theorem ratio_divide_eq_some {R1 R2 c : ratio} (h : ratio_divide R1 R2 = some c) :
    R1.D ≠ 0 ∧ R2.D ≠ 0 ∧ R2.N ≠ 0 ∧ c.D ≠ 0 ∧ c.value = R1.value / R2.value := by
  unfold ratio_divide at h
  simp only [Bool.and_eq_true, decide_eq_true_eq] at h
  split at h
  · rename_i hc
    obtain ⟨⟨⟨h₁, h₂⟩, hY⟩, hUV⟩ := hc
    cases h
    have hD₁ := ratio.D_ne_zero_of_wellFormed h₁
    have hD₂ := ratio.D_ne_zero_of_wellFormed h₂
    have hV := ratio.D_ne_zero_of_wellFormed hUV
    have hN₂ : R2.N ≠ 0 := fun h0 => hY (by rw [ratio.num_eq_zero_of_N h0, mul_zero])
    refine ⟨hD₁, hD₂, hN₂, hV, ?_⟩
    have e := ratio.num_div_den (ratio.mk (R1.num * R2.den) (R1.den * R2.num)) hY
    have e₁ := ratio.num_div_den R1 hD₁
    have e₂ := ratio.num_div_den R2 hD₂
    show (((ratio.mk (R1.num * R2.den) (R1.den * R2.num)).num : ℤ) : ℚ) /
      (((ratio.mk (R1.num * R2.den) (R1.den * R2.num)).den : ℤ) : ℚ) = R1.value / R2.value
    rw [e, ← e₁, ← e₂]
    show (((R1.num * R2.den : ℤ)) : ℚ) / ((R1.den * R2.num : ℤ) : ℚ) = _
    push_cast
    rw [div_div_div_eq]
  · exact Option.noConfusion h

/-- The member `den` of a ratio with nonzero denominator argument is not zero. -/
theorem ratio.den_ne_zero {r : ratio} (hD : r.D ≠ 0) : r.den ≠ 0 := by
  intro h
  have h₂ : (Int.gcd r.N r.D : ℤ) ∣ (r.D.natAbs : ℤ) := Int.dvd_natAbs.mpr Int.gcd_dvd_right
  have := Int.eq_zero_of_ediv_eq_zero h₂ h
  exact hD (by simpa using this)

/-- The member `num` of a ratio with nonzero arguments is not zero. -/
theorem ratio.num_ne_zero {r : ratio} (hN : r.N ≠ 0) (hD : r.D ≠ 0) : r.num ≠ 0 := by
  intro h
  have h₁ : (Int.gcd r.N r.D : ℤ) ∣ (r.N.natAbs : ℤ) := Int.dvd_natAbs.mpr Int.gcd_dvd_left
  have h₃ : (Int.gcd r.N r.D : ℤ) ∣ Int.sign r.N * Int.sign r.D * (r.N.natAbs : ℤ) :=
    Dvd.dvd.mul_left h₁ _
  have := Int.eq_zero_of_ediv_eq_zero h₃ h
  simp [Int.sign_eq_zero_iff_zero, hN, hD] at this

/-- The type `std::ratio_divide<R1, R2>` is well-formed exactly when both arguments are
well-formed, `R2` is not zero, and the reduced terms of the quotient are
representable. -/
theorem ratio_divide_isSome_iff (R1 R2 : ratio) :
    (ratio_divide R1 R2).isSome = true ↔
      R1.wellFormed = true ∧ R2.wellFormed = true ∧ R2.N ≠ 0 ∧
        (ratio.mk (ratio.mk (R1.num * R2.den) (R1.den * R2.num)).num
          (ratio.mk (R1.num * R2.den) (R1.den * R2.num)).den).wellFormed = true := by
  unfold ratio_divide
  simp only [Bool.and_eq_true, decide_eq_true_eq]
  constructor
  · intro h
    split at h
    · rename_i hc
      obtain ⟨⟨⟨h₁, h₂⟩, hY⟩, hUV⟩ := hc
      exact ⟨h₁, h₂, fun h0 => hY (by rw [ratio.num_eq_zero_of_N h0, mul_zero]), hUV⟩
    · exact Bool.noConfusion h
  · rintro ⟨h₁, h₂, hN, hUV⟩
    have hY : R1.den * R2.num ≠ 0 :=
      mul_ne_zero (ratio.den_ne_zero (ratio.D_ne_zero_of_wellFormed h₁))
        (ratio.num_ne_zero hN (ratio.D_ne_zero_of_wellFormed h₂))
    rw [if_pos ⟨⟨⟨h₁, h₂⟩, hY⟩, hUV⟩]
    rfl

end std

namespace units

/-! ## Supporting lemmas for `quantity` -/

/-- Over the rationals `do_convert` multiplies by the rational number the
conversion ratio stands for. -/
theorem detail.conversion.do_convert_rat (c : std.ratio) (hD : c.D ≠ 0) (value : ℚ) :
    detail.conversion.do_convert c value = value * c.value := by
  unfold detail.conversion.do_convert
  split
  · rename_i h
    subst h
    simp [std.ratio.value]
  · rw [mul_div_assoc]
    exact congrArg (fun x => value * x) (std.ratio.num_div_den c hD)

/-- The member `in<>()` has a value exactly when the tags are identical and the quotient
of the two prefixes is well-formed. -/
theorem quantity.in_isSome_iff {BASE_TAG : Tag} {PREFIX : std.ratio} {FLOATING_POINT : Type}
    [Mul FLOATING_POINT] [Div FLOATING_POINT] [IntCast FLOATING_POINT]
    (self : quantity BASE_TAG PREFIX FLOATING_POINT) (OTHER_TAG : Tag)
    (OTHER_PREFIX : std.ratio) :
    (self.in_ OTHER_TAG OTHER_PREFIX).isSome = true ↔
      OTHER_TAG = BASE_TAG ∧ (std.ratio_divide PREFIX OTHER_PREFIX).isSome = true := by
  unfold quantity.in_
  by_cases h : OTHER_TAG = BASE_TAG
  · simp [h]
  · simp [h]

/-- The line `dx.in<GeV>()` of `assertCompatibleUnits.cpp` is rejected: `dx` is
counted in `cm`, `GeV` in `MeV`. -/
theorem assertCompatibleUnits_in_GeV :
    (quantity.mk 10 : quantity cmTag (std.ratio.mk 1 1) ℚ).in_ MeVTag (std.ratio.mk 1000 1) =
      none := by
  have h : ¬ MeVTag = cmTag := by decide
  unfold quantity.in_
  rw [if_neg h]

/-! ## Claims about conversion -/

/-- C9 fails as stated: a quantity whose Scale is `std::exa` has no value
`in<>()` a target of the same base Identifier whose Scale is `std::atto`, and
no such target can be constructed from it, although the exact rational
quotient of the two Scales exists. -/
theorem C9_conversion_exa_to_atto_rejected :
    (quantity.mk 1 : quantity cmTag std.exa ℚ).in_ cmTag std.atto = none ∧
      (quantity.mk 1 : quantity cmTag std.exa ℚ).in_ cmTag std.atto ≠
        some ((1 : ℚ) * (std.exa.value / std.atto.value)) ∧
      quantity.ofQuantity cmTag std.atto (quantity.mk 1 : quantity cmTag std.exa ℚ) = none := by
  have h : std.ratio_divide std.exa std.atto = none := by decide
  have h₁ : (quantity.mk 1 : quantity cmTag std.exa ℚ).in_ cmTag std.atto = none := by
    simp [quantity.in_, h]
  refine ⟨h₁, ?_, ?_⟩
  · rw [h₁]
    exact fun e => Option.noConfusion e
  · have hne : ¬ (cmTag = cmTag ∧ std.exa = std.atto) := by decide
    unfold quantity.ofQuantity
    rw [if_neg hne, if_pos rfl, h₁]
    rfl

/-- C9, amended: over the rationals, for every quantity of Scale `S` and every
target of the same base Identifier and Scale `T` such that
`std::ratio_divide<S, T>` is well-formed, `in<>()` yields the stored value
times the exact rational `S / T`, and constructing the target from the quantity
stores that number. -/
theorem C9_conversion_multiplies_by_scale_quotient (B : Tag) (S T : std.ratio)
    (q : quantity B S ℚ) (h : (std.ratio_divide S T).isSome = true) :
    q.in_ B T = some (q.fValue * (S.value / T.value)) ∧
      quantity.ofQuantity B T q = some (quantity.mk (q.fValue * (S.value / T.value))) := by
  obtain ⟨c, hc⟩ := Option.isSome_iff_exists.mp h
  obtain ⟨hS, hT, hTN, hcD, hcv⟩ := std.ratio_divide_eq_some hc
  have hin : q.in_ B T = some (q.fValue * (S.value / T.value)) := by
    unfold quantity.in_
    rw [if_pos rfl, hc, Option.map_some', detail.conversion.do_convert_rat c hcD, hcv]
  refine ⟨hin, ?_⟩
  unfold quantity.ofQuantity
  by_cases hST : S = T
  · subst hST
    have hv : S.value ≠ 0 := by
      unfold std.ratio.value
      exact div_ne_zero (by exact_mod_cast hTN) (by exact_mod_cast hS)
    rw [if_pos ⟨rfl, rfl⟩, div_self hv, mul_one]
  · rw [if_neg (fun e => hST e.2), if_pos rfl, hin, Option.map_some']

/-- C9 at `protonEnergy.in<MeV>()` of `test_units.cpp`: 1.034 GeV, taken as a
rational, converted to MeV. -/
theorem C9_conversion_multiplies_by_scale_quotient_witness :
    (std.ratio_divide (std.ratio.mk 1000 1) (std.ratio.mk 1 1)).isSome = true ∧
      (quantity.mk (1034 / 1000) : quantity MeVTag (std.ratio.mk 1000 1) ℚ).in_ MeVTag
          (std.ratio.mk 1 1) =
        some ((1034 / 1000 : ℚ) * ((std.ratio.mk 1000 1).value / (std.ratio.mk 1 1).value)) ∧
      quantity.ofQuantity MeVTag (std.ratio.mk 1 1)
          (quantity.mk (1034 / 1000) : quantity MeVTag (std.ratio.mk 1000 1) ℚ) =
        some (quantity.mk
          ((1034 / 1000 : ℚ) * ((std.ratio.mk 1000 1).value / (std.ratio.mk 1 1).value))) :=
  ⟨by decide, C9_conversion_multiplies_by_scale_quotient MeVTag _ _ _ (by decide)⟩

/-- C10 fails as stated: for a quantity whose Scale is `std::peta` and a target
of the identical base Identifier whose Scale is `std::femto`, `in<>()` is not
accepted. -/
theorem C10_identical_base_identifier_rejected :
    ¬ (((quantity.mk 1 : quantity cmTag std.peta ℚ).in_ cmTag std.femto).isSome = true ↔
      cmTag = cmTag) := by
  have h : std.ratio_divide std.peta std.femto = none := by decide
  simp [quantity.in_, h]

/-- C10, amended: `in<>()` is accepted exactly when the target's base
Identifier is identical to the quantity's and `std::ratio_divide` of the two
Scales is well-formed, and construction from another quantity is accepted
exactly when the base Identifiers are identical and either the two types are
the same or `std::ratio_divide` of the two Scales is well-formed; with a
different base Identifier no value is produced, whatever the Scales. -/
theorem C10_conversion_accepted_iff {FLOATING_POINT : Type} [Mul FLOATING_POINT]
    [Div FLOATING_POINT] [IntCast FLOATING_POINT] (B : Tag) (S : std.ratio)
    (q : quantity B S FLOATING_POINT) (TARGET_TAG : Tag) (T : std.ratio) :
    ((q.in_ TARGET_TAG T).isSome = true ↔
        TARGET_TAG = B ∧ (std.ratio_divide S T).isSome = true) ∧
      ((quantity.ofQuantity TARGET_TAG T q).isSome = true ↔
        B = TARGET_TAG ∧ (S = T ∨ (std.ratio_divide S T).isSome = true)) ∧
      (TARGET_TAG ≠ B → q.in_ TARGET_TAG T = none ∧ quantity.ofQuantity TARGET_TAG T q = none) := by
  refine ⟨quantity.in_isSome_iff q TARGET_TAG T, ?_, ?_⟩
  · unfold quantity.ofQuantity
    by_cases hB : B = TARGET_TAG
    · subst hB
      by_cases hST : S = T
      · simp [hST]
      · simp [hST, quantity.in_isSome_iff]
    · simp [hB]
  · intro hB
    have hB' : ¬ B = TARGET_TAG := fun e => hB e.symm
    refine ⟨?_, ?_⟩
    · unfold quantity.in_
      rw [if_neg hB]
    · unfold quantity.ofQuantity
      rw [if_neg (fun e => hB' e.1), if_neg hB']

end units

/-! ## Further lemmas for `std::ratio` -/

namespace std

/-- The type `std::ratio<1, 1>` is well-formed. -/
theorem ratio.wellFormed_one : (ratio.mk 1 1).wellFormed = true := by decide

/-- A ratio with nonzero arguments stands for a nonzero rational. -/
theorem ratio.value_ne_zero {r : ratio} (hN : r.N ≠ 0) (hD : r.D ≠ 0) : r.value ≠ 0 := by
  unfold ratio.value
  exact div_ne_zero (by exact_mod_cast hN) (by exact_mod_cast hD)

/-- A ratio that stands for a nonzero rational has a nonzero numerator argument. -/
theorem ratio.N_ne_zero_of_value {r : ratio} (h : r.value ≠ 0) : r.N ≠ 0 := by
  intro h0
  apply h
  simp [ratio.value, h0]

/-- Reducing `Z / Z` for a nonzero `Z` gives `1 / 1`. -/
theorem ratio.num_den_self {Z : ℤ} (hZ : Z ≠ 0) :
    (ratio.mk Z Z).num = 1 ∧ (ratio.mk Z Z).den = 1 := by
  have hA : (Z.natAbs : ℤ) ≠ 0 := by simpa using hZ
  have hs : Int.sign Z * Int.sign Z = 1 := by
    rcases lt_trichotomy Z 0 with h | h | h
    · rw [Int.sign_eq_neg_one_of_neg h]; rfl
    · exact absurd h hZ
    · rw [Int.sign_eq_one_of_pos h]; rfl
  constructor
  · show Int.sign Z * Int.sign Z * (Z.natAbs : ℤ) / (Int.gcd Z Z : ℤ) = 1
    rw [hs, one_mul, Int.gcd_self, Int.ediv_self hA]
  · show (Z.natAbs : ℤ) / (Int.gcd Z Z : ℤ) = 1
    rw [Int.gcd_self, Int.ediv_self hA]

/-- Two well-formed ratios that stand for the same nonzero rational have the
quotient type `std::ratio<1, 1>`, whatever their unreduced forms. -/
theorem ratio_divide_eq_one {S T : ratio} (hS : S.wellFormed = true) (hT : T.wellFormed = true)
    (h : S.value / T.value = 1) : ratio_divide S T = some (ratio.mk 1 1) := by
  have hSD := ratio.D_ne_zero_of_wellFormed hS
  have hTD := ratio.D_ne_zero_of_wellFormed hT
  have hTv : T.value ≠ 0 := by
    intro h0
    rw [h0, div_zero] at h
    exact zero_ne_one h
  have hTN : T.N ≠ 0 := ratio.N_ne_zero_of_value hTv
  have hST : S.value = T.value := (div_eq_one_iff_eq hTv).mp h
  have hSden : ((S.den : ℤ) : ℚ) ≠ 0 := by exact_mod_cast ratio.den_ne_zero hSD
  have hTden : ((T.den : ℤ) : ℚ) ≠ 0 := by exact_mod_cast ratio.den_ne_zero hTD
  have hXY : S.num * T.den = S.den * T.num := by
    have e : ((S.num : ℤ) : ℚ) / (S.den : ℚ) = ((T.num : ℤ) : ℚ) / (T.den : ℚ) := by
      rw [ratio.num_div_den S hSD, ratio.num_div_den T hTD, hST]
    rw [div_eq_div_iff hSden hTden] at e
    have e' : ((S.num * T.den : ℤ) : ℚ) = ((S.den * T.num : ℤ) : ℚ) := by
      push_cast
      rw [e]
      ring
    exact_mod_cast e'
  have hY : S.den * T.num ≠ 0 :=
    mul_ne_zero (ratio.den_ne_zero hSD) (ratio.num_ne_zero hTN hTD)
  unfold ratio_divide
  simp only [hXY, (ratio.num_den_self hY).1, (ratio.num_den_self hY).2]
  rw [if_pos]
  simp only [Bool.and_eq_true, decide_eq_true_eq]
  exact ⟨⟨⟨hS, hT⟩, hY⟩, ratio.wellFormed_one⟩

/-- The quotient of a well-formed nonzero ratio by itself is `std::ratio<1, 1>`. -/
theorem ratio_divide_self {S : ratio} (hS : S.wellFormed = true) (hN : S.N ≠ 0) :
    ratio_divide S S = some (ratio.mk 1 1) :=
  ratio_divide_eq_one hS hS (div_self (ratio.value_ne_zero hN (ratio.D_ne_zero_of_wellFormed hS)))

/-- When `std::ratio_multiply<R1, R2>` is well-formed, both arguments are and the
product type stands for the exact product of the two rational numbers. -/
theorem ratio_multiply_eq_some {R1 R2 c : ratio} (h : ratio_multiply R1 R2 = some c) :
    R1.wellFormed = true ∧ R2.wellFormed = true ∧ c.D ≠ 0 ∧ c.value = R1.value * R2.value := by
  unfold ratio_multiply at h
  simp only [Bool.and_eq_true] at h
  split at h
  · rename_i hc
    obtain ⟨⟨h₁, h₂⟩, hUV⟩ := hc
    cases h
    have hD₁ := ratio.D_ne_zero_of_wellFormed h₁
    have hD₂ := ratio.D_ne_zero_of_wellFormed h₂
    have hV := ratio.D_ne_zero_of_wellFormed hUV
    have hY : R1.den * R2.den ≠ 0 := mul_ne_zero (ratio.den_ne_zero hD₁) (ratio.den_ne_zero hD₂)
    refine ⟨h₁, h₂, hV, ?_⟩
    have e := ratio.num_div_den (ratio.mk (R1.num * R2.num) (R1.den * R2.den)) hY
    have e₁ := ratio.num_div_den R1 hD₁
    have e₂ := ratio.num_div_den R2 hD₂
    show (((ratio.mk (R1.num * R2.num) (R1.den * R2.den)).num : ℤ) : ℚ) /
      (((ratio.mk (R1.num * R2.num) (R1.den * R2.den)).den : ℤ) : ℚ) = R1.value * R2.value
    rw [e, ← e₁, ← e₂]
    show (((R1.num * R2.num : ℤ)) : ℚ) / ((R1.den * R2.den : ℤ) : ℚ) = _
    push_cast
    rw [div_mul_div_comm]
  · exact Option.noConfusion h

/-- A well-formed `std::ratio_divide<R1, R2>` has well-formed arguments and a
nonzero divisor. -/
theorem ratio_divide_wellFormed {R1 R2 : ratio} (h : (ratio_divide R1 R2).isSome = true) :
    R1.wellFormed = true ∧ R2.wellFormed = true ∧ R2.N ≠ 0 :=
  let h' := (ratio_divide_isSome_iff R1 R2).mp h
  ⟨h'.1, h'.2.1, h'.2.2.1⟩

/-- The absolute value of the member `num` of `std::ratio<X, Y>`. -/
theorem ratio.natAbs_num (X Y : ℤ) (hY : Y ≠ 0) (hX : X ≠ 0) :
    ((ratio.mk X Y).num.natAbs : ℤ) = (X.natAbs : ℤ) / (Int.gcd X Y : ℤ) := by
  have h₁ : (Int.gcd X Y : ℤ) ∣ (X.natAbs : ℤ) := Int.dvd_natAbs.mpr Int.gcd_dvd_left
  show ((Int.sign X * Int.sign Y * (X.natAbs : ℤ) / (Int.gcd X Y : ℤ)).natAbs : ℤ) = _
  rw [Int.mul_ediv_assoc _ h₁, Int.natAbs_mul, Int.natAbs_mul, Int.natAbs_sign_of_nonzero hX,
    Int.natAbs_sign_of_nonzero hY, one_mul, one_mul]
  exact Int.natAbs_of_nonneg (Int.ediv_nonneg (Int.ofNat_nonneg _) (Int.ofNat_nonneg _))

/-- The absolute value of the member `den` of `std::ratio<X, Y>`. -/
theorem ratio.natAbs_den (X Y : ℤ) :
    ((ratio.mk X Y).den.natAbs : ℤ) = (Y.natAbs : ℤ) / (Int.gcd X Y : ℤ) := by
  show (((Y.natAbs : ℤ) / (Int.gcd X Y : ℤ)).natAbs : ℤ) = _
  exact Int.natAbs_of_nonneg (Int.ediv_nonneg (Int.ofNat_nonneg _) (Int.ofNat_nonneg _))

/-- When `R1` is not zero and `std::ratio_divide<R1, R2>` is well-formed, so is
`std::ratio_divide<R2, R1>`. -/
theorem ratio_divide_symm {R1 R2 : ratio} (h : (ratio_divide R1 R2).isSome = true)
    (hN : R1.N ≠ 0) : (ratio_divide R2 R1).isSome = true := by
  obtain ⟨h₁, h₂, hN₂, hUV⟩ := (ratio_divide_isSome_iff R1 R2).mp h
  rw [ratio_divide_isSome_iff]
  refine ⟨h₂, h₁, hN, ?_⟩
  have hD₁ := ratio.D_ne_zero_of_wellFormed h₁
  have hD₂ := ratio.D_ne_zero_of_wellFormed h₂
  have hX : R1.num * R2.den ≠ 0 :=
    mul_ne_zero (ratio.num_ne_zero hN hD₁) (ratio.den_ne_zero hD₂)
  have hY : R1.den * R2.num ≠ 0 :=
    mul_ne_zero (ratio.den_ne_zero hD₁) (ratio.num_ne_zero hN₂ hD₂)
  have e₁ : R2.num * R1.den = R1.den * R2.num := mul_comm _ _
  have e₂ : R2.den * R1.num = R1.num * R2.den := mul_comm _ _
  rw [e₁, e₂]
  simp only [ratio.wellFormed, Bool.and_eq_true, decide_eq_true_eq] at hUV ⊢
  obtain ⟨⟨hV, hUr⟩, hVr⟩ := hUV
  rw [ratio.natAbs_num _ _ hY hX] at hUr
  rw [ratio.natAbs_den] at hVr
  refine ⟨⟨ratio.den_ne_zero hX, ?_⟩, ?_⟩
  · rw [ratio.natAbs_num _ _ hX hY, Int.gcd_comm]
    exact hVr
  · rw [ratio.natAbs_den, Int.gcd_comm]
    exact hUr
end std

namespace units

/-! ## Further lemmas for `quantity` -/

open Tag

/-- Over the rationals `in<>()` multiplies by the quotient of the two Scales. -/
theorem quantity.in_rat {B : Tag} {S T : std.ratio} (q : quantity B S ℚ)
    (h : (std.ratio_divide S T).isSome = true) :
    q.in_ B T = some (q.fValue * (S.value / T.value)) := by
  obtain ⟨c, hc⟩ := Option.isSome_iff_exists.mp h
  obtain ⟨-, -, -, hcD, hcv⟩ := std.ratio_divide_eq_some hc
  unfold quantity.in_
  rw [if_pos rfl, hc, Option.map_some', detail.conversion.do_convert_rat c hcD, hcv]

/-- When the quotient type of the two Scales is `std::ratio<1, 1>`, `in<>()`
returns the stored value itself, for every representation. -/
theorem quantity.in_of_ratio_one {FLOATING_POINT : Type} [Mul FLOATING_POINT]
    [Div FLOATING_POINT] [IntCast FLOATING_POINT] {B : Tag} {S T : std.ratio}
    (q : quantity B S FLOATING_POINT) (h : std.ratio_divide S T = some (std.ratio.mk 1 1)) :
    q.in_ B T = some q.fValue := by
  unfold quantity.in_
  rw [if_pos rfl, h, Option.map_some']
  unfold detail.conversion.do_convert
  rw [if_pos rfl]

/-- With a different tag `in<>()` has no value. -/
theorem quantity.in_none_of_tag_ne {FLOATING_POINT : Type} [Mul FLOATING_POINT]
    [Div FLOATING_POINT] [IntCast FLOATING_POINT] {B : Tag} {S : std.ratio}
    (q : quantity B S FLOATING_POINT) {OTHER_TAG : Tag} (T : std.ratio) (h : OTHER_TAG ≠ B) :
    q.in_ OTHER_TAG T = none := by
  unfold quantity.in_
  rw [if_neg h]

/-- C11 fails as stated: two quantities of the identical base Identifier whose
Scales are `std::femto` and `std::peta` cannot be added. -/
theorem C11_identical_base_identifier_sum_rejected :
    ¬ (((quantity.mk 1 : quantity cmTag std.femto ℚ).operator_plus
        (quantity.mk 1 : quantity cmTag std.peta ℚ)).isSome = true ↔ cmTag = cmTag) := by
  have h : std.ratio_divide std.peta std.femto = none := by decide
  simp [quantity.operator_plus, quantity.in_, h]

/-- C11, amended: each of `+`, `-`, `<`, `>`, `==`, `!=` between a quantity `a`
and a quantity `b` is accepted exactly when `b` has the identical base Identifier
and `std::ratio_divide` of `b`'s Scale by `a`'s Scale is well-formed; with
differing base Identifiers each is rejected, whatever the Scales. -/
theorem C11_operators_accepted_iff {FLOATING_POINT : Type} [Mul FLOATING_POINT]
    [Div FLOATING_POINT] [IntCast FLOATING_POINT] [Add FLOATING_POINT] [Sub FLOATING_POINT]
    [LT FLOATING_POINT] [DecidableRel (fun x y : FLOATING_POINT => x < y)]
    [DecidableEq FLOATING_POINT] (A B : Tag) (Sa Sb : std.ratio)
    (a : quantity A Sa FLOATING_POINT) (b : quantity B Sb FLOATING_POINT) :
    ((a.operator_plus b).isSome = true ↔ B = A ∧ (std.ratio_divide Sb Sa).isSome = true) ∧
    ((a.operator_minus b).isSome = true ↔ B = A ∧ (std.ratio_divide Sb Sa).isSome = true) ∧
    ((a.operator_less b).isSome = true ↔ B = A ∧ (std.ratio_divide Sb Sa).isSome = true) ∧
    ((a.operator_greater b).isSome = true ↔ B = A ∧ (std.ratio_divide Sb Sa).isSome = true) ∧
    ((a.operator_equal b).isSome = true ↔ B = A ∧ (std.ratio_divide Sb Sa).isSome = true) ∧
    ((a.operator_not_equal b).isSome = true ↔
      B = A ∧ (std.ratio_divide Sb Sa).isSome = true) ∧
    (B ≠ A → a.operator_plus b = none ∧ a.operator_minus b = none ∧
      a.operator_less b = none ∧ a.operator_greater b = none ∧
      a.operator_equal b = none ∧ a.operator_not_equal b = none) := by
  by_cases hB : B = A
  · subst hB
    simp [quantity.operator_plus, quantity.operator_minus, quantity.operator_less,
      quantity.operator_greater, quantity.operator_equal, quantity.operator_not_equal,
      quantity.in_]
  · simp [quantity.operator_plus, quantity.operator_minus, quantity.operator_less,
      quantity.operator_greater, quantity.operator_equal, quantity.operator_not_equal, hB]

/-- The lines `dx + ke` and `ke - dEdx` of `assertCompatibleUnits.cpp` are
rejected: `cm` against `MeV`, and `MeV` against the derived `MeV / cm`. -/
theorem assertCompatibleUnits_mixUnits_mixDerived :
    (quantity.mk 10 : quantity cmTag (std.ratio.mk 1 1) ℚ).operator_plus
        (quantity.mk (957 / 10000) : quantity MeVTag (std.ratio.mk 1000 1) ℚ) = none ∧
      (quantity.mk (957 / 10000) : quantity MeVTag (std.ratio.mk 1000 1) ℚ).operator_minus
        (quantity.mk (957 / 100000) :
          quantity (ratioTag (productTag [MeVTag]) (productTag [cmTag])) (std.ratio.mk 1000 1) ℚ)
        = none := by
  have h₁ : ¬ MeVTag = cmTag := by decide
  have h₂ : ¬ ratioTag (productTag [MeVTag]) (productTag [cmTag]) = MeVTag := by decide
  exact ⟨by unfold quantity.operator_plus; rw [if_neg h₁],
    by unfold quantity.operator_minus; rw [if_neg h₂]⟩

/-- C12 fails as stated: for two quantities of the same base Identifier whose
Scales are `std::atto` and `std::exa`, neither the sum nor the difference
exists, although both base-unit magnitudes do. -/
theorem C12_sum_atto_exa_rejected :
    (quantity.mk 1 : quantity MeVTag std.atto ℚ).operator_plus
        (quantity.mk 1 : quantity MeVTag std.exa ℚ) = none ∧
      (quantity.mk 1 : quantity MeVTag std.atto ℚ).operator_minus
        (quantity.mk 1 : quantity MeVTag std.exa ℚ) = none := by
  have h : std.ratio_divide std.exa std.atto = none := by decide
  constructor
  · simp [quantity.operator_plus, quantity.in_, h]
  · simp [quantity.operator_minus, quantity.in_, h]

/-- C12, amended: for Scales `Sa`, `Sb` such that `std::ratio_divide<Sb, Sa>` is
well-formed and every `a` of Scale `Sa` and `b` of Scale `Sb` over the same base
Identifier, in every representation `a + b` and `a - b` are quantities of `a`'s
Identifier and Scale that store `a`'s value plus or minus `b.in<a's type>()`;
over the rationals that is `a.value` plus or minus `b.value * (Sb / Sa)`, and the base-unit
magnitudes of `a + b` and `a - b` are the sum and the difference of the
base-unit magnitudes of `a` and `b`. -/
theorem C12_sum_and_difference (B : Tag) (Sa Sb : std.ratio)
    (h : (std.ratio_divide Sb Sa).isSome = true) :
    (∀ (FLOATING_POINT : Type) [Mul FLOATING_POINT] [Div FLOATING_POINT]
        [IntCast FLOATING_POINT] [Add FLOATING_POINT] [Sub FLOATING_POINT]
        (a : quantity B Sa FLOATING_POINT) (b : quantity B Sb FLOATING_POINT),
      ∃ converted : FLOATING_POINT, b.in_ B Sa = some converted ∧
        a.operator_plus b = some (quantity.mk (a.fValue + converted)) ∧
        a.operator_minus b = some (quantity.mk (a.fValue - converted))) ∧
    (∀ (a : quantity B Sa ℚ) (b : quantity B Sb ℚ),
      a.operator_plus b =
          some (quantity.mk (a.fValue + b.fValue * (Sb.value / Sa.value))) ∧
        a.operator_minus b =
          some (quantity.mk (a.fValue - b.fValue * (Sb.value / Sa.value))) ∧
        (quantity.mk (a.fValue + b.fValue * (Sb.value / Sa.value)) :
          quantity B Sa ℚ).magnitude = a.magnitude + b.magnitude ∧
        (quantity.mk (a.fValue - b.fValue * (Sb.value / Sa.value)) :
          quantity B Sa ℚ).magnitude = a.magnitude - b.magnitude) := by
  obtain ⟨hSb, hSa, hN⟩ := std.ratio_divide_wellFormed h
  have hv : Sa.value ≠ 0 := std.ratio.value_ne_zero hN (std.ratio.D_ne_zero_of_wellFormed hSa)
  constructor
  · intro FLOATING_POINT _ _ _ _ _ a b
    obtain ⟨c, hc⟩ := Option.isSome_iff_exists.mp h
    have hin : b.in_ B Sa = some (detail.conversion.do_convert c b.fValue) := by
      unfold quantity.in_
      rw [if_pos rfl, hc, Option.map_some']
    refine ⟨_, hin, ?_, ?_⟩
    · unfold quantity.operator_plus
      rw [if_pos rfl, hin, Option.map_some']
    · unfold quantity.operator_minus
      rw [if_pos rfl, hin, Option.map_some']
  · intro a b
    have hin := quantity.in_rat b h
    refine ⟨?_, ?_, ?_, ?_⟩
    · unfold quantity.operator_plus
      rw [if_pos rfl, hin, Option.map_some']
    · unfold quantity.operator_minus
      rw [if_pos rfl, hin, Option.map_some']
    · simp only [quantity.magnitude]
      field_simp
    · simp only [quantity.magnitude]
      field_simp

/-- C12 at `ke = protonEnergy - protonMass` of `test_units.cpp`: 1.034 GeV minus
938.3 MeV, taken as rationals. -/
theorem C12_sum_and_difference_witness :
    (std.ratio_divide (std.ratio.mk 1 1) (std.ratio.mk 1000 1)).isSome = true ∧
      (quantity.mk (1034 / 1000) : quantity MeVTag (std.ratio.mk 1000 1) ℚ).operator_plus
          (quantity.mk (9383 / 10) : quantity MeVTag (std.ratio.mk 1 1) ℚ) =
        some (quantity.mk
          (1034 / 1000 + 9383 / 10 * ((std.ratio.mk 1 1).value / (std.ratio.mk 1000 1).value))) ∧
      (quantity.mk (1034 / 1000) : quantity MeVTag (std.ratio.mk 1000 1) ℚ).operator_minus
          (quantity.mk (9383 / 10) : quantity MeVTag (std.ratio.mk 1 1) ℚ) =
        some (quantity.mk
          (1034 / 1000 - 9383 / 10 * ((std.ratio.mk 1 1).value / (std.ratio.mk 1000 1).value))) ∧
      (quantity.mk
          (1034 / 1000 + 9383 / 10 * ((std.ratio.mk 1 1).value / (std.ratio.mk 1000 1).value)) :
          quantity MeVTag (std.ratio.mk 1000 1) ℚ).magnitude =
        (quantity.mk (1034 / 1000) : quantity MeVTag (std.ratio.mk 1000 1) ℚ).magnitude +
          (quantity.mk (9383 / 10) : quantity MeVTag (std.ratio.mk 1 1) ℚ).magnitude ∧
      (quantity.mk
          (1034 / 1000 - 9383 / 10 * ((std.ratio.mk 1 1).value / (std.ratio.mk 1000 1).value)) :
          quantity MeVTag (std.ratio.mk 1000 1) ℚ).magnitude =
        (quantity.mk (1034 / 1000) : quantity MeVTag (std.ratio.mk 1000 1) ℚ).magnitude -
          (quantity.mk (9383 / 10) : quantity MeVTag (std.ratio.mk 1 1) ℚ).magnitude :=
  ⟨by decide, (C12_sum_and_difference MeVTag _ _ (by decide)).2
    (quantity.mk (1034 / 1000)) (quantity.mk (9383 / 10))⟩

/-- The difference `ke` of `test_units.cpp`, re-expressed in MeV, is 95.7. -/
theorem test_units_ke_in_MeV :
    ((quantity.mk (1034 / 1000) : quantity MeVTag (std.ratio.mk 1000 1) ℚ).operator_minus
        (quantity.mk (9383 / 10) : quantity MeVTag (std.ratio.mk 1 1) ℚ)).bind
      (fun ke => ke.in_ MeVTag (std.ratio.mk 1 1)) = some (957 / 10) := by
  have h₁ : (std.ratio_divide (std.ratio.mk 1 1) (std.ratio.mk 1000 1)).isSome = true := by
    decide
  have h₂ : (std.ratio_divide (std.ratio.mk 1000 1) (std.ratio.mk 1 1)).isSome = true := by
    decide
  unfold quantity.operator_minus
  rw [if_pos rfl, quantity.in_rat _ h₁, Option.map_some', Option.some_bind,
    quantity.in_rat _ h₂]
  norm_num [std.ratio.value]

/-- For every representation `a * b` stores the product of the two stored
values: `rhs.in<>()` of the right operand's own type is the stored value. -/
theorem quantity.operator_times_eq {FLOATING_POINT : Type} [Mul FLOATING_POINT]
    [Div FLOATING_POINT] [IntCast FLOATING_POINT] {A B T : Tag} {Sa Sb Q : std.ratio}
    (a : quantity A Sa FLOATING_POINT) (b : quantity B Sb FLOATING_POINT)
    (hT : buildProduct [A, B] = some T) (hQ : std.ratio_multiply Sa Sb = some Q)
    (hb : Sb.N ≠ 0) :
    a.operator_times b = some ⟨T, Q, quantity.mk (a.fValue * b.fValue)⟩ := by
  obtain ⟨-, hSb, -, -⟩ := std.ratio_multiply_eq_some hQ
  have hin := quantity.in_of_ratio_one b (std.ratio_divide_self hSb hb)
  unfold quantity.operator_times
  rw [hT, hQ, hin]

/-- For every representation `a / b` stores the quotient of the two stored
values, whenever the identifier and the Scale of the result exist. -/
theorem quantity.operator_divide_eq {FLOATING_POINT : Type} [Mul FLOATING_POINT]
    [Div FLOATING_POINT] [IntCast FLOATING_POINT] {A B T : Tag} {Sa Sb Q : std.ratio}
    (a : quantity A Sa FLOATING_POINT) (b : quantity B Sb FLOATING_POINT)
    (hT : buildRatio [A, B] = some T) (hQ : std.ratio_divide Sa Sb = some Q) :
    a.operator_divide b = some ⟨T, Q, quantity.mk (a.fValue / b.fValue)⟩ := by
  have hs : (std.ratio_divide Sa Sb).isSome = true := by rw [hQ]; rfl
  obtain ⟨-, hSb, hb⟩ := std.ratio_divide_wellFormed hs
  have hin := quantity.in_of_ratio_one b (std.ratio_divide_self hSb hb)
  unfold quantity.operator_divide
  rw [hT, hQ, hin]

/-- C13 fails as stated: two quantities whose Scales are both `std::exa` have
no product, although the product of their base-unit magnitudes exists; and no
quantity can be multiplied by one whose Scale is zero. -/
theorem C13_product_exa_exa_rejected :
    (quantity.mk 1 : quantity cmTag std.exa ℚ).operator_times
        (quantity.mk 1 : quantity MeVTag std.exa ℚ) = none ∧
      (quantity.mk 1 : quantity cmTag (std.ratio.mk 1 1) ℚ).operator_times
        (quantity.mk 1 : quantity MeVTag (std.ratio.mk 0 1) ℚ) = none := by
  have h₁ : std.ratio_multiply std.exa std.exa = none := by decide
  have h₂ : std.ratio_divide (std.ratio.mk 0 1) (std.ratio.mk 0 1) = none := by decide
  constructor
  · unfold quantity.operator_times
    rw [h₁]
    split
    · rename_i e _
      exact Option.noConfusion e
    · rfl
  · unfold quantity.operator_times quantity.in_
    rw [if_pos rfl, h₂]
    split
    · rename_i e
      exact Option.noConfusion e
    · rfl

/-- C13, amended: for every two Identifiers and every two Scales `Sa`, `Sb` such
that `std::ratio_multiply<Sa, Sb>` is well-formed and `Sb` is not zero, there
are the Identifier `buildProduct` of the two Identifiers and a Scale that
stands for `Sa * Sb` such that, in every representation, `a * b` is the
quantity of that Identifier and Scale storing `a.value * b.value`; over the
rationals its base-unit magnitude is the product of the two base-unit
magnitudes. -/
theorem C13_product (A B : Tag) (Sa Sb : std.ratio)
    (h : (std.ratio_multiply Sa Sb).isSome = true) (hb : Sb.N ≠ 0) :
    ∃ (T : Tag) (Q : std.ratio), buildProduct [A, B] = some T ∧
      std.ratio_multiply Sa Sb = some Q ∧ Q.value = Sa.value * Sb.value ∧
      (∀ (FLOATING_POINT : Type) [Mul FLOATING_POINT] [Div FLOATING_POINT]
          [IntCast FLOATING_POINT] (a : quantity A Sa FLOATING_POINT)
          (b : quantity B Sb FLOATING_POINT),
        a.operator_times b = some ⟨T, Q, quantity.mk (a.fValue * b.fValue)⟩) ∧
      (∀ (a : quantity A Sa ℚ) (b : quantity B Sb ℚ),
        (quantity.mk (a.fValue * b.fValue) : quantity T Q ℚ).magnitude =
          a.magnitude * b.magnitude) := by
  obtain ⟨T, hT⟩ := Option.isSome_iff_exists.mp (buildProduct_isSome A B)
  obtain ⟨Q, hQ⟩ := Option.isSome_iff_exists.mp h
  obtain ⟨-, -, -, hv⟩ := std.ratio_multiply_eq_some hQ
  refine ⟨T, Q, hT, hQ, hv, ?_, ?_⟩
  · intro FLOATING_POINT _ _ _ a b
    exact quantity.operator_times_eq a b hT hQ hb
  · intro a b
    simp only [quantity.magnitude, hv]
    ring

/-- C13 at `dx * ke` of `test_units.cpp`: 20 cm times 0.0957 GeV. -/
theorem C13_product_witness :
    ((std.ratio_multiply (std.ratio.mk 1 1) (std.ratio.mk 1000 1)).isSome = true ∧
        (std.ratio.mk 1000 1).N ≠ 0) ∧
      ∃ (T : Tag) (Q : std.ratio), buildProduct [cmTag, MeVTag] = some T ∧
        std.ratio_multiply (std.ratio.mk 1 1) (std.ratio.mk 1000 1) = some Q ∧
        Q.value = (std.ratio.mk 1 1).value * (std.ratio.mk 1000 1).value ∧
        (∀ (FLOATING_POINT : Type) [Mul FLOATING_POINT] [Div FLOATING_POINT]
            [IntCast FLOATING_POINT] (a : quantity cmTag (std.ratio.mk 1 1) FLOATING_POINT)
            (b : quantity MeVTag (std.ratio.mk 1000 1) FLOATING_POINT),
          a.operator_times b = some ⟨T, Q, quantity.mk (a.fValue * b.fValue)⟩) ∧
        (∀ (a : quantity cmTag (std.ratio.mk 1 1) ℚ)
            (b : quantity MeVTag (std.ratio.mk 1000 1) ℚ),
          (quantity.mk (a.fValue * b.fValue) : quantity T Q ℚ).magnitude =
            a.magnitude * b.magnitude) :=
  ⟨⟨by decide, by decide⟩, C13_product cmTag MeVTag _ _ (by decide) (by decide)⟩

/-- The product of five quantities `prod = dx*ke*thirdDistance*dx*dx` of
`test_units.cpp`: five factors in the order of multiplication, Scale 100, and
the base-unit magnitude `20*(1034 - 938.3)*39*20*20`. -/
theorem test_units_prod :
    ∃ value : ℚ,
      (((((quantity.mk 20 : quantity cmTag (std.ratio.mk 1 1) ℚ).operator_times
          (quantity.mk (957 / 10000) : quantity MeVTag (std.ratio.mk 1000 1) ℚ)).bind
        (fun p => p.2.2.operator_times
          (quantity.mk 390 : quantity cmTag (std.ratio.mk 1 10) ℚ))).bind
        (fun p => p.2.2.operator_times
          (quantity.mk 20 : quantity cmTag (std.ratio.mk 1 1) ℚ))).bind
        (fun p => p.2.2.operator_times
          (quantity.mk 20 : quantity cmTag (std.ratio.mk 1 1) ℚ))) =
        some ⟨productTag [cmTag, MeVTag, cmTag, cmTag, cmTag], std.ratio.mk 100 1,
          quantity.mk value⟩ ∧
      (quantity.mk value : quantity (productTag [cmTag, MeVTag, cmTag, cmTag, cmTag])
          (std.ratio.mk 100 1) ℚ).magnitude = 20 * (1034 - 9383 / 10) * 39 * 20 * 20 := by
  refine ⟨20 * (957 / 10000) * 390 * 20 * 20, ?_, ?_⟩
  · have h₁ := quantity.operator_times_eq
      (quantity.mk 20 : quantity cmTag (std.ratio.mk 1 1) ℚ)
      (quantity.mk (957 / 10000) : quantity MeVTag (std.ratio.mk 1000 1) ℚ)
      (show buildProduct [cmTag, MeVTag] = some (productTag [cmTag, MeVTag]) from rfl)
      (show std.ratio_multiply _ _ = some (std.ratio.mk 1000 1) from by decide) (by decide)
    have h₂ := quantity.operator_times_eq
      (quantity.mk (20 * (957 / 10000)) :
        quantity (productTag [cmTag, MeVTag]) (std.ratio.mk 1000 1) ℚ)
      (quantity.mk 390 : quantity cmTag (std.ratio.mk 1 10) ℚ)
      (show buildProduct [productTag [cmTag, MeVTag], cmTag] =
        some (productTag [cmTag, MeVTag, cmTag]) from rfl)
      (show std.ratio_multiply _ _ = some (std.ratio.mk 100 1) from by decide) (by decide)
    have h₃ := quantity.operator_times_eq
      (quantity.mk (20 * (957 / 10000) * 390) :
        quantity (productTag [cmTag, MeVTag, cmTag]) (std.ratio.mk 100 1) ℚ)
      (quantity.mk 20 : quantity cmTag (std.ratio.mk 1 1) ℚ)
      (show buildProduct [productTag [cmTag, MeVTag, cmTag], cmTag] =
        some (productTag [cmTag, MeVTag, cmTag, cmTag]) from rfl)
      (show std.ratio_multiply _ _ = some (std.ratio.mk 100 1) from by decide) (by decide)
    have h₄ := quantity.operator_times_eq
      (quantity.mk (20 * (957 / 10000) * 390 * 20) :
        quantity (productTag [cmTag, MeVTag, cmTag, cmTag]) (std.ratio.mk 100 1) ℚ)
      (quantity.mk 20 : quantity cmTag (std.ratio.mk 1 1) ℚ)
      (show buildProduct [productTag [cmTag, MeVTag, cmTag, cmTag], cmTag] =
        some (productTag [cmTag, MeVTag, cmTag, cmTag, cmTag]) from rfl)
      (show std.ratio_multiply _ _ = some (std.ratio.mk 100 1) from by decide) (by decide)
    rw [h₁, Option.some_bind]
    show (Option.bind (Option.bind ((quantity.mk (20 * (957 / 10000)) :
        quantity (productTag [cmTag, MeVTag]) (std.ratio.mk 1000 1) ℚ).operator_times _) _) _) = _
    rw [h₂, Option.some_bind]
    show (Option.bind ((quantity.mk (20 * (957 / 10000) * 390) :
        quantity (productTag [cmTag, MeVTag, cmTag]) (std.ratio.mk 100 1) ℚ).operator_times _) _)
      = _
    rw [h₃, Option.some_bind]
    exact h₄
  · norm_num [quantity.magnitude, std.ratio.value]

/-- C14 fails as stated: a quantity whose Scale is `std::exa` cannot be divided
by one whose Scale is `std::atto`, although the identifier of the quotient
exists. -/
theorem C14_quotient_exa_atto_rejected :
    (buildRatio [MeVTag, cmTag]).isSome = true ∧
      (quantity.mk 1 : quantity MeVTag std.exa ℚ).operator_divide
        (quantity.mk 1 : quantity cmTag std.atto ℚ) = none := by
  have h : std.ratio_divide std.exa std.atto = none := by decide
  refine ⟨rfl, ?_⟩
  unfold quantity.operator_divide
  rw [h]
  split
  · rename_i e _
    exact Option.noConfusion e
  · rfl

/-- C14, amended: for every two Identifiers for which `buildRatio` has a result
and every two Scales `Sa`, `Sb` such that `std::ratio_divide<Sa, Sb>` is
well-formed, there is a Scale that stands for `Sa / Sb` such that, in every
representation, `a / b` is the quantity of the Identifier `buildRatio` and of
that Scale storing `a.value / b.value`; over the rationals, when `b.value` is
not zero, its base-unit magnitude is the quotient of the two base-unit
magnitudes. -/
theorem C14_quotient (A B C : Tag) (Sa Sb : std.ratio) (hC : buildRatio [A, B] = some C)
    (h : (std.ratio_divide Sa Sb).isSome = true) :
    ∃ Q : std.ratio, std.ratio_divide Sa Sb = some Q ∧ Q.value = Sa.value / Sb.value ∧
      (∀ (FLOATING_POINT : Type) [Mul FLOATING_POINT] [Div FLOATING_POINT]
          [IntCast FLOATING_POINT] (a : quantity A Sa FLOATING_POINT)
          (b : quantity B Sb FLOATING_POINT),
        a.operator_divide b = some ⟨C, Q, quantity.mk (a.fValue / b.fValue)⟩) ∧
      (∀ (a : quantity A Sa ℚ) (b : quantity B Sb ℚ), b.fValue ≠ 0 →
        (quantity.mk (a.fValue / b.fValue) : quantity C Q ℚ).magnitude =
          a.magnitude / b.magnitude) := by
  obtain ⟨Q, hQ⟩ := Option.isSome_iff_exists.mp h
  obtain ⟨-, -, -, -, hv⟩ := std.ratio_divide_eq_some hQ
  refine ⟨Q, hQ, hv, ?_, ?_⟩
  · intro FLOATING_POINT _ _ _ a b
    exact quantity.operator_divide_eq a b hC hQ
  · intro a b _
    simp only [quantity.magnitude, hv]
    rw [div_mul_div_comm]

/-- C14 at `dEdx = (protonEnergy - protonMass)/dx` of `test_units.cpp`: a
quantity in GeV divided by one in cm is a quantity of
`Ratio[Product[MeV], Product[cm]]`. -/
theorem C14_quotient_witness :
    (buildRatio [MeVTag, cmTag] = some (ratioTag (productTag [MeVTag]) (productTag [cmTag])) ∧
        (std.ratio_divide (std.ratio.mk 1000 1) (std.ratio.mk 1 1)).isSome = true) ∧
      ∃ Q : std.ratio,
        std.ratio_divide (std.ratio.mk 1000 1) (std.ratio.mk 1 1) = some Q ∧
        Q.value = (std.ratio.mk 1000 1).value / (std.ratio.mk 1 1).value ∧
        (∀ (FLOATING_POINT : Type) [Mul FLOATING_POINT] [Div FLOATING_POINT]
            [IntCast FLOATING_POINT] (a : quantity MeVTag (std.ratio.mk 1000 1) FLOATING_POINT)
            (b : quantity cmTag (std.ratio.mk 1 1) FLOATING_POINT),
          a.operator_divide b =
            some ⟨ratioTag (productTag [MeVTag]) (productTag [cmTag]), Q,
              quantity.mk (a.fValue / b.fValue)⟩) ∧
        (∀ (a : quantity MeVTag (std.ratio.mk 1000 1) ℚ)
            (b : quantity cmTag (std.ratio.mk 1 1) ℚ), b.fValue ≠ 0 →
          (quantity.mk (a.fValue / b.fValue) :
              quantity (ratioTag (productTag [MeVTag]) (productTag [cmTag])) Q ℚ).magnitude =
            a.magnitude / b.magnitude) :=
  ⟨⟨rfl, by decide⟩, C14_quotient MeVTag cmTag _ _ _ rfl (by decide)⟩

/-- The quotient `dEdx` of `test_units.cpp` has the base-unit magnitude 95.7 / 10. -/
theorem test_units_dEdx :
    (quantity.mk (957 / 10000) : quantity MeVTag (std.ratio.mk 1000 1) ℚ).operator_divide
        (quantity.mk 10 : quantity cmTag (std.ratio.mk 1 1) ℚ) =
      some ⟨ratioTag (productTag [MeVTag]) (productTag [cmTag]), std.ratio.mk 1000 1,
        quantity.mk (957 / 10000 / 10)⟩ ∧
    (quantity.mk (957 / 10000 / 10) :
        quantity (ratioTag (productTag [MeVTag]) (productTag [cmTag]))
          (std.ratio.mk 1000 1) ℚ).magnitude = 957 / 10 / 10 := by
  refine ⟨quantity.operator_divide_eq _ _ rfl (by decide), ?_⟩
  norm_num [quantity.magnitude, std.ratio.value]

/-- Over the rationals, constructing a quantity of Scale `T` from one of Scale
`S` over the same tag stores the value times the quotient of the Scales. -/
theorem quantity.ofQuantity_rat {B : Tag} {S T : std.ratio} (q : quantity B S ℚ)
    (h : (std.ratio_divide S T).isSome = true) :
    quantity.ofQuantity B T q = some (quantity.mk (q.fValue * (S.value / T.value))) := by
  have hin := quantity.in_rat q h
  obtain ⟨hS, -, hTN⟩ := std.ratio_divide_wellFormed h
  unfold quantity.ofQuantity
  by_cases hST : S = T
  · subst hST
    have hv : S.value ≠ 0 :=
      std.ratio.value_ne_zero hTN (std.ratio.D_ne_zero_of_wellFormed hS)
    rw [if_pos ⟨rfl, rfl⟩, div_self hv, mul_one]
  · rw [if_neg (fun e => hST e.2), if_pos rfl, hin, Option.map_some']

/-- C15 fails as stated: two quantities of the same base Identifier with the
positive Scales `std::atto` and `std::exa` cannot be compared. -/
theorem C15_comparison_atto_exa_rejected :
    0 < std.atto.value ∧ 0 < std.exa.value ∧
      (quantity.mk 1 : quantity cmTag std.atto ℚ).operator_less
        (quantity.mk 1 : quantity cmTag std.exa ℚ) = none ∧
      (quantity.mk 1 : quantity cmTag std.atto ℚ).operator_greater
        (quantity.mk 1 : quantity cmTag std.exa ℚ) = none ∧
      (quantity.mk 1 : quantity cmTag std.atto ℚ).operator_equal
        (quantity.mk 1 : quantity cmTag std.exa ℚ) = none ∧
      (quantity.mk 1 : quantity cmTag std.atto ℚ).operator_not_equal
        (quantity.mk 1 : quantity cmTag std.exa ℚ) = none := by
  have h : std.ratio_divide std.exa std.atto = none := by decide
  refine ⟨by norm_num [std.ratio.value, std.atto], by norm_num [std.ratio.value, std.exa],
    ?_, ?_, ?_, ?_⟩
  · simp [quantity.operator_less, quantity.in_, h]
  · simp [quantity.operator_greater, quantity.in_, h]
  · simp [quantity.operator_equal, quantity.in_, h]
  · simp [quantity.operator_not_equal, quantity.in_, h]

/-- C15, amended: for every two quantities `a`, `b` over the rationals with the
same base Identifier such that `a`'s Scale is positive and
`std::ratio_divide<Sb, Sa>` is well-formed, each of `a < b`, `a > b`, `a == b`,
`a != b` is the same comparison of the base-unit magnitudes of `a` and `b`
(positivity of `b`'s Scale is not needed). -/
theorem C15_comparisons_on_magnitudes (B : Tag) (Sa Sb : std.ratio) (a : quantity B Sa ℚ)
    (b : quantity B Sb ℚ) (h : (std.ratio_divide Sb Sa).isSome = true)
    (hSa : 0 < Sa.value) :
    a.operator_less b = some (decide (a.magnitude < b.magnitude)) ∧
      a.operator_greater b = some (decide (a.magnitude > b.magnitude)) ∧
      a.operator_equal b = some (decide (a.magnitude = b.magnitude)) ∧
      a.operator_not_equal b = some (decide (a.magnitude ≠ b.magnitude)) := by
  have hin := quantity.in_rat b h
  have e : b.fValue * (Sb.value / Sa.value) = b.fValue * Sb.value / Sa.value :=
    (mul_div_assoc _ _ _).symm
  have hlt : a.fValue < b.fValue * (Sb.value / Sa.value) ↔ a.magnitude < b.magnitude := by
    rw [e]
    exact lt_div_iff₀ hSa
  have hgt : b.fValue * (Sb.value / Sa.value) < a.fValue ↔ a.magnitude > b.magnitude := by
    rw [e]
    exact div_lt_iff₀ hSa
  have heq : a.fValue = b.fValue * (Sb.value / Sa.value) ↔ a.magnitude = b.magnitude := by
    rw [e]
    exact eq_div_iff hSa.ne'
  refine ⟨?_, ?_, ?_, ?_⟩
  · unfold quantity.operator_less
    rw [if_pos rfl, hin, Option.map_some', decide_eq_decide.mpr hlt]
  · unfold quantity.operator_greater
    rw [if_pos rfl, hin, Option.map_some', decide_eq_decide.mpr hgt]
  · unfold quantity.operator_equal
    rw [if_pos rfl, hin, Option.map_some', decide_eq_decide.mpr heq]
  · unfold quantity.operator_not_equal
    rw [if_pos rfl, hin, Option.map_some', decide_eq_decide.mpr (not_congr heq)]

/-- C15 at `thirdDistance > otherDx` of `test_units.cpp`: 390 mm against 30 cm. -/
theorem C15_comparisons_on_magnitudes_witness :
    ((std.ratio_divide (std.ratio.mk 1 1) (std.ratio.mk 1 10)).isSome = true ∧
        0 < (std.ratio.mk 1 10).value) ∧
      (quantity.mk 390 : quantity cmTag (std.ratio.mk 1 10) ℚ).operator_less
          (quantity.mk 30 : quantity cmTag (std.ratio.mk 1 1) ℚ) =
        some (decide ((quantity.mk 390 : quantity cmTag (std.ratio.mk 1 10) ℚ).magnitude <
          (quantity.mk 30 : quantity cmTag (std.ratio.mk 1 1) ℚ).magnitude)) ∧
      (quantity.mk 390 : quantity cmTag (std.ratio.mk 1 10) ℚ).operator_greater
          (quantity.mk 30 : quantity cmTag (std.ratio.mk 1 1) ℚ) =
        some (decide ((quantity.mk 390 : quantity cmTag (std.ratio.mk 1 10) ℚ).magnitude >
          (quantity.mk 30 : quantity cmTag (std.ratio.mk 1 1) ℚ).magnitude)) ∧
      (quantity.mk 390 : quantity cmTag (std.ratio.mk 1 10) ℚ).operator_equal
          (quantity.mk 30 : quantity cmTag (std.ratio.mk 1 1) ℚ) =
        some (decide ((quantity.mk 390 : quantity cmTag (std.ratio.mk 1 10) ℚ).magnitude =
          (quantity.mk 30 : quantity cmTag (std.ratio.mk 1 1) ℚ).magnitude)) ∧
      (quantity.mk 390 : quantity cmTag (std.ratio.mk 1 10) ℚ).operator_not_equal
          (quantity.mk 30 : quantity cmTag (std.ratio.mk 1 1) ℚ) =
        some (decide ((quantity.mk 390 : quantity cmTag (std.ratio.mk 1 10) ℚ).magnitude ≠
          (quantity.mk 30 : quantity cmTag (std.ratio.mk 1 1) ℚ).magnitude)) :=
  ⟨⟨by decide, by norm_num [std.ratio.value]⟩,
    C15_comparisons_on_magnitudes cmTag _ _ _ _ (by decide) (by norm_num [std.ratio.value])⟩

/-- The comparisons of `test_units.cpp`: 390 mm > 30 cm is true and
390 mm > 401 mm is false. -/
theorem test_units_comparisons :
    (quantity.mk 390 : quantity cmTag (std.ratio.mk 1 10) ℚ).operator_greater
        (quantity.mk 30 : quantity cmTag (std.ratio.mk 1 1) ℚ) = some true ∧
      (quantity.mk 390 : quantity cmTag (std.ratio.mk 1 10) ℚ).operator_greater
        (quantity.mk 401 : quantity cmTag (std.ratio.mk 1 10) ℚ) = some false := by
  have h₁ : (std.ratio_divide (std.ratio.mk 1 1) (std.ratio.mk 1 10)).isSome = true := by
    decide
  have h₂ : (std.ratio_divide (std.ratio.mk 1 10) (std.ratio.mk 1 10)).isSome = true := by
    decide
  constructor
  · unfold quantity.operator_greater
    rw [if_pos rfl, quantity.in_rat _ h₁, Option.map_some']
    norm_num [std.ratio.value]
  · unfold quantity.operator_greater
    rw [if_pos rfl, quantity.in_rat _ h₂, Option.map_some']
    norm_num [std.ratio.value]

/-- C16: for every representation and every two well-formed Scales `S`, `T`
whose quotient is one, in whatever unreduced forms they are written,
`in<>()` of a target of the same base Identifier returns the stored value
itself: no operation of the representation is applied to it. -/
theorem C16_scale_one_fast_path {FLOATING_POINT : Type} [Mul FLOATING_POINT]
    [Div FLOATING_POINT] [IntCast FLOATING_POINT] (B : Tag) (S T : std.ratio)
    (q : quantity B S FLOATING_POINT) (hS : S.wellFormed = true) (hT : T.wellFormed = true)
    (h : S.value / T.value = 1) :
    std.ratio_divide S T = some (std.ratio.mk 1 1) ∧ q.in_ B T = some q.fValue :=
  ⟨std.ratio_divide_eq_one hS hT h,
    quantity.in_of_ratio_one q (std.ratio_divide_eq_one hS hT h)⟩

/-- C16 at a Scale written `2000/2` against the Scale `1000/1`, over the integers. -/
theorem C16_scale_one_fast_path_witness :
    ((std.ratio.mk 2000 2).wellFormed = true ∧ (std.ratio.mk 1000 1).wellFormed = true ∧
        (std.ratio.mk 2000 2).value / (std.ratio.mk 1000 1).value = 1) ∧
      std.ratio_divide (std.ratio.mk 2000 2) (std.ratio.mk 1000 1) = some (std.ratio.mk 1 1) ∧
      (quantity.mk 987 : quantity MeVTag (std.ratio.mk 2000 2) ℤ).in_ MeVTag
        (std.ratio.mk 1000 1) = some 987 :=
  ⟨⟨by decide, by decide, by norm_num [std.ratio.value]⟩,
    C16_scale_one_fast_path MeVTag _ _ _ (by decide) (by decide)
      (by norm_num [std.ratio.value])⟩

/-- The conversions `protonMass.in<MeV>()` and `protonEnergy.in<GeV>()` of
`test_units.cpp` return the stored values. -/
theorem test_units_same_scale_conversions :
    (quantity.mk (9383 / 10) : quantity MeVTag (std.ratio.mk 1 1) ℚ).in_ MeVTag
        (std.ratio.mk 1 1) = some (9383 / 10) ∧
      (quantity.mk (1034 / 1000) : quantity MeVTag (std.ratio.mk 1000 1) ℚ).in_ MeVTag
        (std.ratio.mk 1000 1) = some (1034 / 1000) :=
  ⟨quantity.in_of_ratio_one _ (by decide), quantity.in_of_ratio_one _ (by decide)⟩

/-- C17 fails as stated: a quantity whose Scale is `std::exa` cannot be converted
to the nonzero Scale `std::femto` of the same base Identifier, so there is no
round trip. -/
theorem C17_round_trip_exa_femto_rejected :
    std.exa.N ≠ 0 ∧ std.femto.N ≠ 0 ∧
      quantity.ofQuantity cmTag std.femto (quantity.mk 1 : quantity cmTag std.exa ℚ) = none ∧
      (quantity.ofQuantity cmTag std.femto (quantity.mk 1 : quantity cmTag std.exa ℚ)).bind
        (fun there => quantity.ofQuantity cmTag std.exa there) ≠
          some (quantity.mk 1 : quantity cmTag std.exa ℚ) := by
  have h : std.ratio_divide std.exa std.femto = none := by decide
  have hne : ¬ (cmTag = cmTag ∧ std.exa = std.femto) := by decide
  have h₁ : quantity.ofQuantity cmTag std.femto (quantity.mk 1 : quantity cmTag std.exa ℚ)
      = none := by
    unfold quantity.ofQuantity quantity.in_
    rw [if_neg hne, if_pos rfl, if_pos rfl, h]
    rfl
  refine ⟨by decide, by decide, h₁, ?_⟩
  rw [h₁]
  exact fun e => Option.noConfusion e

/-- C17, amended: over the rationals, for every stored value and every two
nonzero Scales `S1`, `S2` over the same base Identifier such that
`std::ratio_divide<S1, S2>` is well-formed, converting a quantity at `S1` to
`S2` and back yields the same quantity, by the converting constructor and by
`in<>()` alike. -/
theorem C17_round_trip (B : Tag) (S1 S2 : std.ratio) (q : quantity B S1 ℚ)
    (hN : S1.N ≠ 0) (h : (std.ratio_divide S1 S2).isSome = true) :
    (quantity.ofQuantity B S2 q).bind (fun there => quantity.ofQuantity B S1 there) = some q ∧
      ∃ there : ℚ, q.in_ B S2 = some there ∧
        (quantity.mk there : quantity B S2 ℚ).in_ B S1 = some q.fValue := by
  have h' := std.ratio_divide_symm h hN
  obtain ⟨hS1, hS2, hN2⟩ := std.ratio_divide_wellFormed h
  have hv₁ : S1.value ≠ 0 := std.ratio.value_ne_zero hN (std.ratio.D_ne_zero_of_wellFormed hS1)
  have hv₂ : S2.value ≠ 0 :=
    std.ratio.value_ne_zero hN2 (std.ratio.D_ne_zero_of_wellFormed hS2)
  have e : q.fValue * (S1.value / S2.value) * (S2.value / S1.value) = q.fValue := by
    field_simp
  constructor
  · rw [quantity.ofQuantity_rat q h, Option.some_bind, quantity.ofQuantity_rat _ h']
    show some (quantity.mk (q.fValue * (S1.value / S2.value) * (S2.value / S1.value))) = some q
    rw [e]
  · refine ⟨q.fValue * (S1.value / S2.value), quantity.in_rat q h, ?_⟩
    rw [quantity.in_rat _ h']
    show some (q.fValue * (S1.value / S2.value) * (S2.value / S1.value)) = some q.fValue
    rw [e]

/-- C17 at 10 cm converted to mm and back (`test_units.cpp` units). -/
theorem C17_round_trip_witness :
    ((std.ratio.mk 1 1).N ≠ 0 ∧
        (std.ratio_divide (std.ratio.mk 1 1) (std.ratio.mk 1 10)).isSome = true) ∧
      (quantity.ofQuantity cmTag (std.ratio.mk 1 10)
          (quantity.mk 10 : quantity cmTag (std.ratio.mk 1 1) ℚ)).bind
        (fun there => quantity.ofQuantity cmTag (std.ratio.mk 1 1) there) =
          some (quantity.mk 10) ∧
      ∃ there : ℚ,
        (quantity.mk 10 : quantity cmTag (std.ratio.mk 1 1) ℚ).in_ cmTag (std.ratio.mk 1 10) =
          some there ∧
        (quantity.mk there : quantity cmTag (std.ratio.mk 1 10) ℚ).in_ cmTag
          (std.ratio.mk 1 1) = some 10 :=
  ⟨⟨by decide, by decide⟩, C17_round_trip cmTag _ _ _ (by decide) (by decide)⟩

/-- The round trip of the specification: 10 cm reads 100 in mm, and 100 mm reads
10 in cm. -/
theorem round_trip_cm_mm :
    (quantity.mk 10 : quantity cmTag (std.ratio.mk 1 1) ℚ).in_ cmTag (std.ratio.mk 1 10) =
        some 100 ∧
      (quantity.mk 100 : quantity cmTag (std.ratio.mk 1 10) ℚ).in_ cmTag (std.ratio.mk 1 1) =
        some 10 := by
  have h₁ : (std.ratio_divide (std.ratio.mk 1 1) (std.ratio.mk 1 10)).isSome = true := by
    decide
  have h₂ : (std.ratio_divide (std.ratio.mk 1 10) (std.ratio.mk 1 1)).isSome = true := by
    decide
  constructor
  · rw [quantity.in_rat _ h₁]
    norm_num [std.ratio.value]
  · rw [quantity.in_rat _ h₂]
    norm_num [std.ratio.value]

/-- C18: for every two distinct primitives `A` and `B`, `buildProduct<A, B>` is
`Product[A, B]` and `buildProduct<B, A>` is `Product[B, A]`, the two are
different identifiers, and multiplying `Product[A, B]` by `A` again gives the
three factors `Product[A, B, A]`. -/
theorem C18_no_canonicalization (a b : String) (h : a ≠ b) :
    buildProduct [primitive a, primitive b] = some (productTag [primitive a, primitive b]) ∧
      buildProduct [primitive b, primitive a] = some (productTag [primitive b, primitive a]) ∧
      buildProduct [primitive a, primitive b] ≠ buildProduct [primitive b, primitive a] ∧
      (buildProduct [primitive a, primitive b]).bind
          (fun AB => buildProduct [AB, primitive a]) =
        some (productTag [primitive a, primitive b, primitive a]) := by
  refine ⟨rfl, rfl, ?_, rfl⟩
  intro e
  have e' : productTag [primitive a, primitive b] = productTag [primitive b, primitive a] :=
    Option.some.inj e
  injection e' with e₁
  injection e₁ with e₂
  injection e₂ with e₃
  exact h e₃

/-- C18 at `cm * MeV * cm`. -/
theorem C18_no_canonicalization_witness :
    "cm" ≠ "MeV" ∧
      buildProduct [primitive "cm", primitive "MeV"] =
        some (productTag [primitive "cm", primitive "MeV"]) ∧
      buildProduct [primitive "MeV", primitive "cm"] =
        some (productTag [primitive "MeV", primitive "cm"]) ∧
      buildProduct [primitive "cm", primitive "MeV"] ≠
        buildProduct [primitive "MeV", primitive "cm"] ∧
      (buildProduct [primitive "cm", primitive "MeV"]).bind
          (fun AB => buildProduct [AB, primitive "cm"]) =
        some (productTag [primitive "cm", primitive "MeV", primitive "cm"]) :=
  ⟨by decide, C18_no_canonicalization "cm" "MeV" (by decide)⟩

/-- For a signed representation `-q` stores the negated value, in a quantity of
the same Identifier and Scale. -/
theorem quantity.operator_negate_signed {FLOATING_POINT : Type} [Neg FLOATING_POINT]
    [std.is_signed FLOATING_POINT] {B : Tag} {S : std.ratio} (q : quantity B S FLOATING_POINT)
    (h : std.is_signed.value FLOATING_POINT = true) :
    q.operator_negate = some (quantity.mk (-q.fValue)) := by
  unfold quantity.operator_negate
  rw [if_pos h]

/-- For an unsigned representation no quantity can be constructed, whatever the
tag, the Scale and the value. -/
theorem quantity.construct_unsigned {FLOATING_POINT : Type} [std.is_signed FLOATING_POINT]
    (B : Tag) (S : std.ratio) (value : FLOATING_POINT)
    (h : std.is_signed.value FLOATING_POINT = false) :
    quantity.construct B S value = none := by
  unfold quantity.construct quantity.instantiates
  rw [h]
  rfl

/-- C19: negation is claimed to be the only operation rejected for an unsigned
representation; the class itself is not instantiated for one, so that already
the construction of a quantity of 987 events over an unsigned representation
is rejected, while over the signed integers the quantity is constructed and
negated. -/
theorem C19_unsigned_quantity_not_constructed :
    quantity.instantiates ℕ = false ∧
      quantity.construct eventsTag (std.ratio.mk 1 1) (987 : ℕ) = none ∧
      quantity.construct eventsTag (std.ratio.mk 1 1) (987 : ℤ) = some (quantity.mk 987) ∧
      (quantity.mk 987 : quantity eventsTag (std.ratio.mk 1 1) ℤ).operator_negate =
        some (quantity.mk (-987)) :=
  ⟨rfl, rfl, rfl, rfl⟩

/-- C20: for every `a` and `b` over the same base Identifier, `a += b` is
accepted exactly when `a + b` is, and then the receiver, still a quantity of
`a`'s Identifier and Scale, stores the value of `a + b` computed from `a`'s
prior value, which is `a`'s prior value plus `b.in<a's type>()`, and `b` is
unchanged; likewise for `a -= b` and `a - b`. -/
theorem C20_compound_assignment {FLOATING_POINT : Type} [Mul FLOATING_POINT]
    [Div FLOATING_POINT] [IntCast FLOATING_POINT] [Add FLOATING_POINT] [Sub FLOATING_POINT]
    (B : Tag) (Sa Sb : std.ratio) (a : quantity B Sa FLOATING_POINT)
    (b : quantity B Sb FLOATING_POINT) :
    quantity.operator_plus_assign (a, b) =
        (a.operator_plus b).map (fun sum => (quantity.mk sum.fValue, b)) ∧
      quantity.operator_minus_assign (a, b) =
        (a.operator_minus b).map (fun difference => (quantity.mk difference.fValue, b)) ∧
      quantity.operator_plus_assign (a, b) =
        (b.in_ B Sa).map (fun converted => (quantity.mk (a.fValue + converted), b)) ∧
      quantity.operator_minus_assign (a, b) =
        (b.in_ B Sa).map (fun converted => (quantity.mk (a.fValue - converted), b)) := by
  refine ⟨rfl, rfl, ?_, ?_⟩
  · unfold quantity.operator_plus_assign quantity.operator_plus
    rw [if_pos rfl]
    cases b.in_ B Sa <;> rfl
  · unfold quantity.operator_minus_assign quantity.operator_minus
    rw [if_pos rfl]
    cases b.in_ B Sa <;> rfl

/-- The modifying operators of `test_units.cpp`: `dx = 10 cm; dx -= 5 cm;
dx += 15 cm` leaves `dx` at 20 cm. -/
theorem test_units_modifying_operators :
    (quantity.operator_minus_assign
        ((quantity.mk 10 : quantity cmTag (std.ratio.mk 1 1) ℚ),
          (quantity.mk 5 : quantity cmTag (std.ratio.mk 1 1) ℚ))).bind
      (fun state => quantity.operator_plus_assign
        (state.1, (quantity.mk 15 : quantity cmTag (std.ratio.mk 1 1) ℚ))) =
      some (quantity.mk 20, quantity.mk 15) := by
  have h : std.ratio_divide (std.ratio.mk 1 1) (std.ratio.mk 1 1) = some (std.ratio.mk 1 1) := by
    decide
  have h₁ : quantity.operator_minus_assign
      ((quantity.mk 10 : quantity cmTag (std.ratio.mk 1 1) ℚ),
        (quantity.mk 5 : quantity cmTag (std.ratio.mk 1 1) ℚ)) =
      some (quantity.mk (10 - 5), quantity.mk 5) := by
    unfold quantity.operator_minus_assign quantity.operator_minus
    simp only []
    rw [if_pos trivial, quantity.in_of_ratio_one _ h]
    rfl
  have h₂ : quantity.operator_plus_assign
      ((quantity.mk (10 - 5) : quantity cmTag (std.ratio.mk 1 1) ℚ),
        (quantity.mk 15 : quantity cmTag (std.ratio.mk 1 1) ℚ)) =
      some (quantity.mk (10 - 5 + 15), quantity.mk 15) := by
    unfold quantity.operator_plus_assign quantity.operator_plus
    simp only []
    rw [if_pos trivial, quantity.in_of_ratio_one _ h]
    rfl
  rw [h₁, Option.some_bind, h₂]
  norm_num

end units

/-! ## Lemmas for `std::ratio`: reduced terms and division by one -/

namespace std

/-- The member `num` of `std::ratio<X, Y>` is no larger than `X` in absolute value. -/
theorem ratio.natAbs_num_le (X Y : ℤ) : ((ratio.mk X Y).num.natAbs : ℤ) ≤ (X.natAbs : ℤ) := by
  by_cases hX : X = 0
  · subst hX; simp [ratio.num]
  by_cases hY : Y = 0
  · subst hY; simp [ratio.num]
  rw [ratio.natAbs_num X Y hY hX]
  exact Int.ediv_le_self _ (Int.ofNat_nonneg _)

/-- The member `den` of `std::ratio<X, Y>` is no larger than `Y` in absolute value. -/
theorem ratio.natAbs_den_le (X Y : ℤ) : ((ratio.mk X Y).den.natAbs : ℤ) ≤ (Y.natAbs : ℤ) := by
  rw [ratio.natAbs_den X Y]
  exact Int.ediv_le_self _ (Int.ofNat_nonneg _)

/-- The type `std::ratio_divide<P, std::ratio<1>>` is well-formed for every
well-formed `P`. -/
theorem ratio_divide_one {P : ratio} (hP : P.wellFormed = true) :
    (ratio_divide P (ratio.mk 1 1)).isSome = true := by
  rw [ratio_divide_isSome_iff]
  refine ⟨hP, by decide, by decide, ?_⟩
  have hD := ratio.D_ne_zero_of_wellFormed hP
  have h1 : (ratio.mk 1 1).den = 1 := by decide
  have h2 : (ratio.mk 1 1).num = 1 := by decide
  rw [h1, h2, mul_one, mul_one]
  have hden : P.den ≠ 0 := ratio.den_ne_zero hD
  simp only [ratio.wellFormed, Bool.and_eq_true, decide_eq_true_eq] at hP ⊢
  obtain ⟨⟨-, hN⟩, hDm⟩ := hP
  refine ⟨⟨ratio.den_ne_zero hden, ?_⟩, ?_⟩
  · calc ((ratio.mk P.num P.den).num.natAbs : ℤ) ≤ (P.num.natAbs : ℤ) := ratio.natAbs_num_le _ _
      _ ≤ (P.N.natAbs : ℤ) := ratio.natAbs_num_le P.N P.D
      _ ≤ INTMAX_MAX := hN
  · calc ((ratio.mk P.num P.den).den.natAbs : ℤ) ≤ (P.den.natAbs : ℤ) := ratio.natAbs_den_le _ _
      _ ≤ (P.D.natAbs : ℤ) := ratio.natAbs_den_le P.N P.D
      _ ≤ INTMAX_MAX := hDm

/-- The member `den` is positive. -/
theorem ratio.den_pos {r : ratio} (hD : r.D ≠ 0) : 0 < r.den :=
  lt_of_le_of_ne (Int.ediv_nonneg (Int.ofNat_nonneg _) (Int.ofNat_nonneg _))
    (Ne.symm (ratio.den_ne_zero hD))

/-- The members `num` and `den` have no common factor. -/
theorem ratio.gcd_num_den {r : ratio} (hD : r.D ≠ 0) : Int.gcd r.num r.den = 1 := by
  have hg : 0 < Nat.gcd r.N.natAbs r.D.natAbs :=
    Nat.gcd_pos_of_pos_right _ (Int.natAbs_pos.mpr hD)
  have hden : r.den.natAbs = r.D.natAbs / Nat.gcd r.N.natAbs r.D.natAbs := by
    have := ratio.natAbs_den r.N r.D
    have h2 : ((r.D.natAbs : ℤ) / (Int.gcd r.N r.D : ℤ)) =
        ((r.D.natAbs / Nat.gcd r.N.natAbs r.D.natAbs : ℕ) : ℤ) := by
      rw [Int.ofNat_ediv]; rfl
    rw [h2] at this
    exact_mod_cast this
  by_cases hN : r.N = 0
  · have hnum : r.num = 0 := ratio.num_eq_zero_of_N hN
    rw [hnum, Int.gcd_zero_left, hden, hN]
    simp only [Int.natAbs_zero, Nat.gcd_zero_left]
    exact Nat.div_self (Int.natAbs_pos.mpr hD)
  · have hnum : r.num.natAbs = r.N.natAbs / Nat.gcd r.N.natAbs r.D.natAbs := by
      have := ratio.natAbs_num r.N r.D hD hN
      have h2 : ((r.N.natAbs : ℤ) / (Int.gcd r.N r.D : ℤ)) =
          ((r.N.natAbs / Nat.gcd r.N.natAbs r.D.natAbs : ℕ) : ℤ) := by
        rw [Int.ofNat_ediv]; rfl
      rw [h2] at this
      exact_mod_cast this
    show Nat.gcd r.num.natAbs r.den.natAbs = 1
    rw [hnum, hden]
    exact Nat.coprime_div_gcd_div_gcd hg

end std

namespace units

open Tag

/-! ## Claims about printing -/

/-- Joining with a separator, started from a text that has a first part. -/
theorem intercalate_go_append (a b s : String) (l : List String) :
    String.intercalate.go (a ++ b) s l = a ++ String.intercalate.go b s l := by
  induction l generalizing b with
  | nil => rfl
  | cons x xs ih =>
    show String.intercalate.go (a ++ b ++ s ++ x) s xs =
      a ++ String.intercalate.go (b ++ s ++ x) s xs
    rw [← ih]
    simp only [String.append_assoc]

/-- On one or more declared units `printProduct` appends their names, joined
by `" * "`, to the stream. -/
theorem printProduct_names (os : String) (name : String) (names : List String) :
    printProduct os ((name :: names).map primitive) =
      some (os ++ " * ".intercalate (name :: names)) := by
  induction names generalizing os name with
  | nil => rfl
  | cons next rest ih =>
    show printProduct (os ++ name ++ " * ") ((next :: rest).map primitive) = _
    rw [ih]
    show some (os ++ name ++ " * " ++ String.intercalate.go next " * " rest) =
      some (os ++ String.intercalate.go (name ++ " * " ++ next) " * " rest)
    rw [String.append_assoc name, intercalate_go_append, intercalate_go_append]
    simp only [String.append_assoc]

/-- With no template argument `printProduct` has no viable overload, and a
factor that is itself a `productTag` has no member `name`. -/
theorem printProduct_no_result (os : String) :
    printProduct os [] = none ∧ printProduct os [productTag [cmTag], MeVTag] = none :=
  ⟨rfl, rfl⟩

/-- Printing a quantity whose tag is a Product of declared units, once its
value converts to Scale 1/1. -/
theorem operator_insert_product {FLOATING_POINT : Type} [Mul FLOATING_POINT]
    [Div FLOATING_POINT] [IntCast FLOATING_POINT] (format : FLOATING_POINT → String)
    (os : String) {PREFIX : std.ratio} (f : String) (fs : List String)
    (value : quantity (productTag ((f :: fs).map primitive)) PREFIX FLOATING_POINT)
    {number : FLOATING_POINT}
    (hn : value.in_ (productTag ((f :: fs).map primitive)) (std.ratio.mk 1 1) = some number) :
    operator_insert format os value =
      some (os ++ format number ++ " " ++ " * ".intercalate (f :: fs)) := by
  show (value.in_ _ (std.ratio.mk 1 1)).bind (fun number =>
    printProduct (os ++ format number ++ " ") ((f :: fs).map primitive)) = _
  rw [hn, Option.some_bind, printProduct_names]

/-- Printing a quantity whose tag is a Ratio of two Products of declared units,
once its value converts to Scale 1/1. -/
theorem operator_insert_ratio {FLOATING_POINT : Type} [Mul FLOATING_POINT]
    [Div FLOATING_POINT] [IntCast FLOATING_POINT] (format : FLOATING_POINT → String)
    (os : String) {PREFIX : std.ratio} (n : String) (ns : List String) (d : String)
    (ds : List String)
    (value : quantity (ratioTag (productTag ((n :: ns).map primitive))
      (productTag ((d :: ds).map primitive))) PREFIX FLOATING_POINT)
    {number : FLOATING_POINT}
    (hn : value.in_ (ratioTag (productTag ((n :: ns).map primitive))
      (productTag ((d :: ds).map primitive))) (std.ratio.mk 1 1) = some number) :
    operator_insert format os value =
      some (os ++ format number ++ " " ++ ("(" ++ " * ".intercalate (n :: ns) ++
        ") / (" ++ " * ".intercalate (d :: ds) ++ ")")) := by
  show (value.in_ _ (std.ratio.mk 1 1)).bind (fun number =>
    (printProduct (os ++ format number ++ " (") ((n :: ns).map primitive)).bind (fun os₁ =>
      (printProduct (os₁ ++ ") / (") ((d :: ds).map primitive)).map
        (fun os₂ => os₂ ++ ")"))) = _
  rw [hn, Option.some_bind, printProduct_names, Option.some_bind, printProduct_names,
    Option.map_some']
  simp only [String.append_assoc]
  rfl

/-- C21: for every representation and every well-formed Scale, printing a
quantity whose tag is a Product of one or more declared units appends to the
stream the value converted to Scale 1/1, a blank, and the names of the factors
in stored order joined by `" * "`, with nothing after the last name; printing
a quantity whose tag is a Ratio of two such Products appends the value
converted to Scale 1/1, a blank, and `"("`, the joined numerator names,
`") / ("`, the joined denominator names and `")"`.  Over the rationals the
value converted to Scale 1/1 is the base-unit magnitude. -/
theorem C21_display_form {FLOATING_POINT : Type} [Mul FLOATING_POINT] [Div FLOATING_POINT]
    [IntCast FLOATING_POINT] (format : FLOATING_POINT → String) (os : String)
    (PREFIX : std.ratio) (hP : PREFIX.wellFormed = true) :
    (∀ (f : String) (fs : List String)
        (value : quantity (productTag ((f :: fs).map primitive)) PREFIX FLOATING_POINT),
        ∃ number, value.in_ (productTag ((f :: fs).map primitive)) (std.ratio.mk 1 1) =
            some number ∧
          operator_insert format os value =
            some (os ++ format number ++ " " ++ " * ".intercalate (f :: fs))) ∧
      (∀ (n : String) (ns : List String) (d : String) (ds : List String)
        (value : quantity (ratioTag (productTag ((n :: ns).map primitive))
          (productTag ((d :: ds).map primitive))) PREFIX FLOATING_POINT),
        ∃ number, value.in_ (ratioTag (productTag ((n :: ns).map primitive))
            (productTag ((d :: ds).map primitive))) (std.ratio.mk 1 1) = some number ∧
          operator_insert format os value =
            some (os ++ format number ++ " " ++ ("(" ++ " * ".intercalate (n :: ns) ++
              ") / (" ++ " * ".intercalate (d :: ds) ++ ")"))) ∧
      (∀ (B : Tag) (value : quantity B PREFIX ℚ),
        value.in_ B (std.ratio.mk 1 1) = some value.magnitude) := by
  have h1 := std.ratio_divide_one hP
  refine ⟨?_, ?_, ?_⟩
  · intro f fs value
    obtain ⟨number, hn⟩ := Option.isSome_iff_exists.mp
      ((quantity.in_isSome_iff value _ (std.ratio.mk 1 1)).mpr ⟨rfl, h1⟩)
    exact ⟨number, hn, operator_insert_product format os f fs value hn⟩
  · intro n ns d ds value
    obtain ⟨number, hn⟩ := Option.isSome_iff_exists.mp
      ((quantity.in_isSome_iff value _ (std.ratio.mk 1 1)).mpr ⟨rfl, h1⟩)
    exact ⟨number, hn, operator_insert_ratio format os n ns d ds value hn⟩
  · intro B value
    rw [quantity.in_rat value h1]
    simp [quantity.magnitude, std.ratio.value]

/-- C21 at the Scale `1000/1` of `dEdx` in `test_units.cpp`, whose tag is the
Ratio of `MeV` by `cm`. -/
theorem C21_display_form_witness :
    (std.ratio.mk 1000 1).wellFormed = true ∧
      ∃ number,
        (quantity.mk (957 / 100000) :
          quantity (ratioTag (productTag [MeVTag]) (productTag [cmTag])) (std.ratio.mk 1000 1)
            ℚ).in_ (ratioTag (productTag [MeVTag]) (productTag [cmTag])) (std.ratio.mk 1 1) =
            some number ∧
        operator_insert (fun x : ℚ => toString x) "dEdx is "
          (quantity.mk (957 / 100000) :
            quantity (ratioTag (productTag [MeVTag]) (productTag [cmTag])) (std.ratio.mk 1000 1)
              ℚ) =
          some ("dEdx is " ++ toString number ++ " " ++ ("(" ++ " * ".intercalate ["MeV"] ++
            ") / (" ++ " * ".intercalate ["cm"] ++ ")")) :=
  ⟨by decide,
    (C21_display_form (fun x : ℚ => toString x) "dEdx is " (std.ratio.mk 1000 1)
      (by decide)).2.1 "MeV" [] "cm" [] _⟩

/-- The lines `std::cout << "dEdx is " << dEdx` and
`std::cout << "Printing a product of 5 types: " << prod` of `test_units.cpp`:
`dEdx` holds 0.00957 at Scale `1000/1`, `prod` holds 298584 at Scale `100/1`. -/
theorem test_units_printing (format : ℚ → String) :
    operator_insert format "dEdx is "
        (quantity.mk (957 / 100000) :
          quantity (ratioTag (productTag [MeVTag]) (productTag [cmTag])) (std.ratio.mk 1000 1)
            ℚ) =
        some ("dEdx is " ++ format (957 / 100) ++ " " ++ "(MeV) / (cm)") ∧
      operator_insert format "Printing a product of 5 types: "
        (quantity.mk 298584 :
          quantity (productTag [cmTag, MeVTag, cmTag, cmTag, cmTag]) (std.ratio.mk 100 1) ℚ) =
        some ("Printing a product of 5 types: " ++ format 29858400 ++ " " ++
          "cm * MeV * cm * cm * cm") := by
  have h₁ : (quantity.mk (957 / 100000) :
      quantity (ratioTag (productTag [MeVTag]) (productTag [cmTag])) (std.ratio.mk 1000 1)
        ℚ).in_ (ratioTag (productTag [MeVTag]) (productTag [cmTag])) (std.ratio.mk 1 1) =
      some (957 / 100) := by
    rw [quantity.in_rat _ (by decide)]
    norm_num [std.ratio.value]
  have h₂ : (quantity.mk 298584 :
      quantity (productTag [cmTag, MeVTag, cmTag, cmTag, cmTag]) (std.ratio.mk 100 1) ℚ).in_
        (productTag [cmTag, MeVTag, cmTag, cmTag, cmTag]) (std.ratio.mk 1 1) =
      some 29858400 := by
    rw [quantity.in_rat _ (by decide)]
    norm_num [std.ratio.value]
  exact ⟨operator_insert_ratio format "dEdx is " "MeV" [] "cm" [] _ h₁,
    operator_insert_product format "Printing a product of 5 types: " "cm"
      ["MeV", "cm", "cm", "cm"] _ h₂⟩

/-! ## Claims about an integer `FLOATING_POINT` -/

/-- Conversion to a signed integer type leaves a representable value unchanged. -/
theorem integral.convert_of_representable {bits : Nat} (hbits : 0 < bits) {x : Int}
    (h : integral.representable bits x = true) : integral.convert bits x = x := by
  simp only [integral.representable, Bool.and_eq_true, decide_eq_true_eq] at h
  obtain ⟨k, rfl⟩ : ∃ k, bits = k + 1 := ⟨bits - 1, by omega⟩
  simp only [Nat.add_sub_cancel] at h
  unfold integral.convert
  simp only [Nat.add_sub_cancel]
  have hp : (2 : ℤ) ^ (k + 1) = 2 * 2 ^ k := by ring
  rw [Int.emod_eq_of_lt (by linarith [h.1]) (by rw [hp]; linarith [h.2])]
  ring

/-- The primary template of the integer `do_convert` when nothing overflows. -/
theorem detail.conversion.do_convert_integral_eq {bits : Nat} (hbits : 0 < bits)
    {c : std.ratio} (hne : c ≠ std.ratio.mk 1 1) {v : Int}
    (hmul : integral.representable 64 (v * c.num) = true)
    (hquot : integral.representable bits (Int.tdiv (v * c.num) c.den) = true) :
    detail.conversion.do_convert_integral bits c v = Int.tdiv (v * c.num) c.den := by
  unfold detail.conversion.do_convert_integral
  rw [if_neg hne, integral.convert_of_representable (by decide) hmul,
    integral.convert_of_representable hbits hquot]

/-- When the division leaves no remainder and nothing overflows, the integer
`do_convert` returns the exact quotient. -/
theorem detail.conversion.do_convert_integral_exact {bits : Nat} (hbits : 0 < bits)
    {c : std.ratio} {v : Int} (hdvd : c.den ∣ v * c.num)
    (hmul : integral.representable 64 (v * c.num) = true)
    (hquot : integral.representable bits (Int.tdiv (v * c.num) c.den) = true) :
    detail.conversion.do_convert_integral bits c v * c.den = v * c.num := by
  by_cases hne : c = std.ratio.mk 1 1
  · subst hne
    unfold detail.conversion.do_convert_integral
    rw [if_pos rfl]
    rfl
  · rw [detail.conversion.do_convert_integral_eq hbits hne hmul hquot,
      Int.tdiv_eq_ediv_of_dvd hdvd, Int.ediv_mul_cancel hdvd]

/-- Unfolding of the integer `in<>()` for a target of the same tag. -/
theorem quantity.in_integral_eq {bits : Nat} {B : Tag} {S T c : std.ratio}
    (q : quantity B S Int) (hc : std.ratio_divide S T = some c) :
    q.in_integral bits B T = some (detail.conversion.do_convert_integral bits c q.fValue) := by
  unfold quantity.in_integral
  rw [if_pos rfl, hc, Option.map_some']

/-- An exact conversion over a signed integer type gives the stored value times
the quotient of the two Scales. -/
theorem quantity.in_integral_exact {bits : Nat} (hbits : 0 < bits) {B : Tag}
    {S T c : std.ratio} (v : Int) (hc : std.ratio_divide S T = some c)
    (hdvd : c.den ∣ v * c.num) (hmul : integral.representable 64 (v * c.num) = true)
    (hquot : integral.representable bits (Int.tdiv (v * c.num) c.den) = true) :
    ∃ converted : Int,
      (quantity.mk v : quantity B S Int).in_integral bits B T = some converted ∧
        (converted : ℚ) = (v : ℚ) * (S.value / T.value) := by
  obtain ⟨-, -, -, hcD, hcv⟩ := std.ratio_divide_eq_some hc
  have hd := std.ratio.den_pos hcD
  have hdq : (c.den : ℚ) ≠ 0 := by exact_mod_cast hd.ne'
  refine ⟨_, quantity.in_integral_eq _ hc, ?_⟩
  have h := detail.conversion.do_convert_integral_exact hbits hdvd hmul hquot
  have hq : ((detail.conversion.do_convert_integral bits c v : Int) : ℚ) * (c.den : ℚ) =
      (v : ℚ) * (c.num : ℚ) := by exact_mod_cast h
  rw [← hcv, ← std.ratio.num_div_den c hcD]
  show ((detail.conversion.do_convert_integral bits c v : Int) : ℚ) = _
  field_simp
  exact hq

/-- C23 fails as stated: 3000000 at Scale `1000/1` over `int` (32 bits),
converted to Scale `1/1`.  The reduced quotient is `1000/1`, the integer
quotient of `3000000 * 1000` by `1` is 3000000000, which `int` does not hold:
`in<>()` returns -1294967296. -/
theorem C23_conversion_leaves_int :
    std.ratio_divide (std.ratio.mk 1000 1) (std.ratio.mk 1 1) = some (std.ratio.mk 1000 1) ∧
      (std.ratio.mk 1000 1).num = 1000 ∧ (std.ratio.mk 1000 1).den = 1 ∧
      Int.tdiv (3000000 * 1000) 1 = 3000000000 ∧
      (quantity.mk 3000000 : quantity eventsTag (std.ratio.mk 1000 1) Int).in_integral 32
        eventsTag (std.ratio.mk 1 1) = some (-1294967296) := by
  decide

/-- C23, amended: over a signed integer representation, for a stored value `v`
and the quotient `c` of the Scale by the target's Scale, `c` not `1/1`, whose
members `num` and `den` are the reduced terms of that quotient: when `v * num`
is representable in `intmax_t` and its quotient by `den`, truncated toward
zero, is representable in the representation, `in<>()` returns that quotient,
the multiplication being done before the division; and the quotient equals
the exact rational `v * num / den` exactly when `den` divides `v * num`. -/
theorem C23_integer_conversion (bits : Nat) (hbits : 0 < bits) (B : Tag) (S T c : std.ratio)
    (v : Int) (hc : std.ratio_divide S T = some c) (hne : c ≠ std.ratio.mk 1 1)
    (hmul : integral.representable 64 (v * c.num) = true)
    (hquot : integral.representable bits (Int.tdiv (v * c.num) c.den) = true) :
    ((c.num : ℚ) / (c.den : ℚ) = S.value / T.value ∧ 0 < c.den ∧ Int.gcd c.num c.den = 1) ∧
      (quantity.mk v : quantity B S Int).in_integral bits B T =
        some (Int.tdiv (v * c.num) c.den) ∧
      (((Int.tdiv (v * c.num) c.den : Int) : ℚ) = (v : ℚ) * (c.num : ℚ) / (c.den : ℚ) ↔
        c.den ∣ v * c.num) := by
  obtain ⟨-, -, -, hcD, hcv⟩ := std.ratio_divide_eq_some hc
  have hd := std.ratio.den_pos hcD
  have hdq : (c.den : ℚ) ≠ 0 := by exact_mod_cast hd.ne'
  refine ⟨⟨by rw [std.ratio.num_div_den c hcD, hcv], hd, std.ratio.gcd_num_den hcD⟩, ?_, ?_⟩
  · rw [quantity.in_integral_eq _ hc,
      detail.conversion.do_convert_integral_eq hbits hne hmul hquot]
  · constructor
    · intro h
      rw [eq_div_iff hdq] at h
      have h' : Int.tdiv (v * c.num) c.den * c.den = v * c.num := by exact_mod_cast h
      exact Dvd.intro_left _ h'
    · intro h
      rw [Int.tdiv_eq_ediv_of_dvd h, eq_div_iff hdq]
      have := Int.ediv_mul_cancel h
      exact_mod_cast this

/-- C23 at -1500 events (`int`, 32 bits) converted to the Scale `1000/1`: the
quotient of the Scales is `1/1000` and `in<>()` returns -1, the quotient of
-1500 by 1000 truncated toward zero. -/
theorem C23_integer_conversion_witness :
    (0 < 32 ∧
      std.ratio_divide (std.ratio.mk 1 1) (std.ratio.mk 1000 1) = some (std.ratio.mk 1 1000) ∧
      std.ratio.mk 1 1000 ≠ std.ratio.mk 1 1 ∧
      integral.representable 64 (-1500 * (std.ratio.mk 1 1000).num) = true ∧
      integral.representable 32
        (Int.tdiv (-1500 * (std.ratio.mk 1 1000).num) (std.ratio.mk 1 1000).den) = true) ∧
    (quantity.mk (-1500) : quantity eventsTag (std.ratio.mk 1 1) Int).in_integral 32 eventsTag
        (std.ratio.mk 1000 1) =
      some (Int.tdiv (-1500 * (std.ratio.mk 1 1000).num) (std.ratio.mk 1 1000).den) ∧
    Int.tdiv (-1500 * (std.ratio.mk 1 1000).num) (std.ratio.mk 1 1000).den = -1 :=
  ⟨⟨by decide, by decide, by decide, by decide, by decide⟩,
    (C23_integer_conversion 32 (by decide) eventsTag (std.ratio.mk 1 1) (std.ratio.mk 1000 1)
      (std.ratio.mk 1 1000) (-1500) (by decide) (by decide) (by decide) (by decide)).2.1,
    by decide⟩

/-- C24 fails as stated, over `int` (32 bits).  With `a` 1500 events at Scale
`1/1` and `b` 1 at Scale `1000/1`: `a == b` compares 1500 with 1000 and is
false, `b == a` compares 1 with 1500 / 1000 = 1 and is true.  With `a` -500 at
Scale `1/1` and `b` 0 at Scale `1000/1`: `a < b` compares -500 with 0 and is
true, `b > a` compares 0 with -500 / 1000 = 0 and is false. -/
theorem C24_comparisons_not_symmetric :
    ((quantity.mk 1500 : quantity eventsTag (std.ratio.mk 1 1) Int).operator_equal_integral 32
        (quantity.mk 1 : quantity eventsTag (std.ratio.mk 1000 1) Int) = some false ∧
      (quantity.mk 1 : quantity eventsTag (std.ratio.mk 1000 1) Int).operator_equal_integral 32
        (quantity.mk 1500 : quantity eventsTag (std.ratio.mk 1 1) Int) = some true) ∧
    ((quantity.mk (-500) : quantity eventsTag (std.ratio.mk 1 1) Int).operator_less_integral 32
        (quantity.mk 0 : quantity eventsTag (std.ratio.mk 1000 1) Int) = some true ∧
      (quantity.mk 0 : quantity eventsTag (std.ratio.mk 1000 1) Int).operator_greater_integral
        32 (quantity.mk (-500) : quantity eventsTag (std.ratio.mk 1 1) Int) = some false) := by
  decide

/-- C24, amended: over a signed integer representation, let `a` hold `x` at
Scale `Sa` and `b` hold `y` at Scale `Sb`, with the same base Identifier, and
let both conversions be exact: `c` is the quotient of `Sb` by `Sa` and `c'` that
of `Sa` by `Sb`, the divisor `den` divides the product of the stored value with
`num`, the product is representable in `intmax_t` and the quotient in the
representation.  Then `a == b` and `b == a` give the same result, which tells
whether the two base-unit magnitudes are equal; and when the two Scales have
the same sign, `a < b` and `b > a` give the same result. -/
theorem C24_comparisons_symmetric_when_exact (bits : Nat) (hbits : 0 < bits) (B : Tag)
    (Sa Sb c c' : std.ratio) (x y : Int)
    (hab : std.ratio_divide Sb Sa = some c) (hba : std.ratio_divide Sa Sb = some c')
    (hy : c.den ∣ y * c.num) (hy₁ : integral.representable 64 (y * c.num) = true)
    (hy₂ : integral.representable bits (Int.tdiv (y * c.num) c.den) = true)
    (hx : c'.den ∣ x * c'.num) (hx₁ : integral.representable 64 (x * c'.num) = true)
    (hx₂ : integral.representable bits (Int.tdiv (x * c'.num) c'.den) = true) :
    ((quantity.mk x : quantity B Sa Int).operator_equal_integral bits
          (quantity.mk y : quantity B Sb Int) =
        some (decide ((x : ℚ) * Sa.value = (y : ℚ) * Sb.value)) ∧
      (quantity.mk y : quantity B Sb Int).operator_equal_integral bits
          (quantity.mk x : quantity B Sa Int) =
        some (decide ((x : ℚ) * Sa.value = (y : ℚ) * Sb.value))) ∧
    (0 < Sa.value * Sb.value →
      ((quantity.mk x : quantity B Sa Int).operator_less_integral bits
          (quantity.mk y : quantity B Sb Int) =
        some (decide ((x : ℚ) * Sa.value / Sb.value < (y : ℚ))) ∧
      (quantity.mk y : quantity B Sb Int).operator_greater_integral bits
          (quantity.mk x : quantity B Sa Int) =
        some (decide ((x : ℚ) * Sa.value / Sb.value < (y : ℚ))))) := by
  obtain ⟨-, haD, haN, -, -⟩ := std.ratio_divide_eq_some hab
  obtain ⟨-, hbD, hbN, -, -⟩ := std.ratio_divide_eq_some hba
  have ha := std.ratio.value_ne_zero haN haD
  have hb := std.ratio.value_ne_zero hbN hbD
  obtain ⟨y', hy', hyq⟩ := quantity.in_integral_exact hbits (B := B) y hab hy hy₁ hy₂
  obtain ⟨x', hx', hxq⟩ := quantity.in_integral_exact hbits (B := B) x hba hx hx₁ hx₂
  have hxy : (x = y') ↔ ((x : ℚ) * Sa.value = (y : ℚ) * Sb.value) := by
    rw [← Int.cast_inj (α := ℚ), hyq]
    field_simp
  have hyx : (y = x') ↔ ((x : ℚ) * Sa.value = (y : ℚ) * Sb.value) := by
    rw [← Int.cast_inj (α := ℚ), hxq]
    field_simp
    exact eq_comm
  refine ⟨⟨?_, ?_⟩, ?_⟩
  · unfold quantity.operator_equal_integral
    rw [if_pos rfl, hy', Option.map_some']
    exact congrArg some (decide_eq_decide.mpr hxy)
  · unfold quantity.operator_equal_integral
    rw [if_pos rfl, hx', Option.map_some']
    exact congrArg some (decide_eq_decide.mpr hyx)
  · intro hpos
    have hr : 0 < Sb.value / Sa.value := by
      have : Sb.value / Sa.value = Sa.value * Sb.value / (Sa.value * Sa.value) := by
        field_simp
        ring
      rw [this]
      exact div_pos hpos (mul_self_pos.mpr ha)
    have hlt : (x < y') ↔ ((x : ℚ) * Sa.value / Sb.value < (y : ℚ)) := by
      rw [← Int.cast_lt (R := ℚ), hyq]
      have : (x : ℚ) * Sa.value / Sb.value = (x : ℚ) / (Sb.value / Sa.value) := by
        field_simp
      rw [this, div_lt_iff₀ hr]
    have hgt : (x' < y) ↔ ((x : ℚ) * Sa.value / Sb.value < (y : ℚ)) := by
      rw [← Int.cast_lt (R := ℚ), hxq, mul_div_assoc]
    constructor
    · unfold quantity.operator_less_integral
      rw [if_pos rfl, hy', Option.map_some']
      exact congrArg some (decide_eq_decide.mpr hlt)
    · unfold quantity.operator_greater_integral
      rw [if_pos rfl, hx', Option.map_some']
      exact congrArg some (decide_eq_decide.mpr hgt)

/-- C24 at 3000 events at Scale `1/1` against 3 at Scale `1000/1` (`int`, 32
bits): both conversions are exact and both Scales are positive. -/
theorem C24_comparisons_symmetric_when_exact_witness :
    (0 < 32 ∧
      std.ratio_divide (std.ratio.mk 1000 1) (std.ratio.mk 1 1) = some (std.ratio.mk 1000 1) ∧
      std.ratio_divide (std.ratio.mk 1 1) (std.ratio.mk 1000 1) = some (std.ratio.mk 1 1000) ∧
      (std.ratio.mk 1000 1).den ∣ 3 * (std.ratio.mk 1000 1).num ∧
      integral.representable 64 (3 * (std.ratio.mk 1000 1).num) = true ∧
      integral.representable 32
        (Int.tdiv (3 * (std.ratio.mk 1000 1).num) (std.ratio.mk 1000 1).den) = true ∧
      (std.ratio.mk 1 1000).den ∣ 3000 * (std.ratio.mk 1 1000).num ∧
      integral.representable 64 (3000 * (std.ratio.mk 1 1000).num) = true ∧
      integral.representable 32
        (Int.tdiv (3000 * (std.ratio.mk 1 1000).num) (std.ratio.mk 1 1000).den) = true ∧
      0 < (std.ratio.mk 1 1).value * (std.ratio.mk 1000 1).value) ∧
    ((quantity.mk 3000 : quantity eventsTag (std.ratio.mk 1 1) Int).operator_equal_integral 32
          (quantity.mk 3 : quantity eventsTag (std.ratio.mk 1000 1) Int) =
        some (decide (((3000 : Int) : ℚ) * (std.ratio.mk 1 1).value =
          ((3 : Int) : ℚ) * (std.ratio.mk 1000 1).value)) ∧
      (quantity.mk 3 : quantity eventsTag (std.ratio.mk 1000 1) Int).operator_equal_integral 32
          (quantity.mk 3000 : quantity eventsTag (std.ratio.mk 1 1) Int) =
        some (decide (((3000 : Int) : ℚ) * (std.ratio.mk 1 1).value =
          ((3 : Int) : ℚ) * (std.ratio.mk 1000 1).value))) ∧
    ((quantity.mk 3000 : quantity eventsTag (std.ratio.mk 1 1) Int).operator_less_integral 32
          (quantity.mk 3 : quantity eventsTag (std.ratio.mk 1000 1) Int) =
        some (decide (((3000 : Int) : ℚ) * (std.ratio.mk 1 1).value /
          (std.ratio.mk 1000 1).value < ((3 : Int) : ℚ))) ∧
      (quantity.mk 3 : quantity eventsTag (std.ratio.mk 1000 1) Int).operator_greater_integral
          32 (quantity.mk 3000 : quantity eventsTag (std.ratio.mk 1 1) Int) =
        some (decide (((3000 : Int) : ℚ) * (std.ratio.mk 1 1).value /
          (std.ratio.mk 1000 1).value < ((3 : Int) : ℚ)))) :=
  ⟨⟨by decide, by decide, by decide, by decide, by decide, by decide, by decide, by decide,
      by decide, by norm_num [std.ratio.value]⟩,
    (fun h => ⟨h.1, h.2 (by norm_num [std.ratio.value])⟩)
      (C24_comparisons_symmetric_when_exact 32 (by decide) eventsTag (std.ratio.mk 1 1)
        (std.ratio.mk 1000 1) (std.ratio.mk 1000 1) (std.ratio.mk 1 1000) 3000 3 (by decide)
        (by decide) (by decide) (by decide) (by decide) (by decide) (by decide) (by decide))⟩

/-- The comparison `integral == anotherCount` of `test_units.cpp`, 987 events
against 987 events, and 3000 events against 3 at Scale `1000/1` in both
orders. -/
theorem test_units_integral_comparisons :
    (quantity.mk 987 : quantity eventsTag (std.ratio.mk 1 1) Int).operator_equal_integral 32
        (quantity.mk 987 : quantity eventsTag (std.ratio.mk 1 1) Int) = some true ∧
      (quantity.mk 3000 : quantity eventsTag (std.ratio.mk 1 1) Int).operator_equal_integral 32
        (quantity.mk 3 : quantity eventsTag (std.ratio.mk 1000 1) Int) = some true ∧
      (quantity.mk 3 : quantity eventsTag (std.ratio.mk 1000 1) Int).operator_equal_integral 32
        (quantity.mk 3000 : quantity eventsTag (std.ratio.mk 1 1) Int) = some true := by
  decide

/-! ## Further claims about the unit algebra -/

/-- C25: for normalized identifiers `A`, `B`, `C`, the products
`buildProduct<A, B>`, `buildProduct<B, C>`, `buildProduct<buildProduct<A, B>, C>`
and `buildProduct<A, buildProduct<B, C>>` all have a result, and the last two
are the same type. -/
theorem C25_buildProduct_associative (A B C : Tag) (hA : A.isNormal = true)
    (hB : B.isNormal = true) (hC : C.isNormal = true) :
    ∃ AB BC ABC : Tag, buildProduct [A, B] = some AB ∧ buildProduct [B, C] = some BC ∧
      buildProduct [AB, C] = some ABC ∧ buildProduct [A, BC] = some ABC := by
  rcases Tag.isNormal_cases hA with ⟨a, rfl⟩ | ⟨as, rfl, -⟩ | ⟨an, ad, rfl, -, -⟩ <;>
  rcases Tag.isNormal_cases hB with ⟨b, rfl⟩ | ⟨bs, rfl, -⟩ | ⟨bn, bd, rfl, -, -⟩ <;>
  rcases Tag.isNormal_cases hC with ⟨c, rfl⟩ | ⟨cs, rfl, -⟩ | ⟨cn, cd, rfl, -, -⟩ <;>
  · refine ⟨_, _, _, rfl, rfl, rfl, ?_⟩
    show some _ = some _
    simp [ProductRule.result, Tag.pack, Tag.numPack, Tag.denomPack]

/-- C25 at `anotherRatio * dEdx * prod` of `test_units.cpp`: two Ratios of `MeV`
by `cm` and the Product of five factors. -/
theorem C25_buildProduct_associative_witness :
    ((ratioTag (productTag [MeVTag]) (productTag [cmTag])).isNormal = true ∧
      (productTag [cmTag, MeVTag, cmTag, cmTag, cmTag]).isNormal = true) ∧
    ∃ AB BC ABC : Tag,
      buildProduct [ratioTag (productTag [MeVTag]) (productTag [cmTag]),
        ratioTag (productTag [MeVTag]) (productTag [cmTag])] = some AB ∧
      buildProduct [ratioTag (productTag [MeVTag]) (productTag [cmTag]),
        productTag [cmTag, MeVTag, cmTag, cmTag, cmTag]] = some BC ∧
      buildProduct [AB, productTag [cmTag, MeVTag, cmTag, cmTag, cmTag]] = some ABC ∧
      buildProduct [ratioTag (productTag [MeVTag]) (productTag [cmTag]), BC] = some ABC :=
  ⟨⟨by decide, by decide⟩,
    C25_buildProduct_associative _ _ _ (by decide) (by decide) (by decide)⟩

/-- The tag of `anotherRatio * dEdx * prod` in `test_units.cpp`, grouped either
way. -/
theorem test_units_product_of_three :
    (buildProduct [ratioTag (productTag [MeVTag]) (productTag [cmTag]),
        ratioTag (productTag [MeVTag]) (productTag [cmTag])]).bind
      (fun AB => buildProduct [AB, productTag [cmTag, MeVTag, cmTag, cmTag, cmTag]]) =
      some (ratioTag (productTag [MeVTag, MeVTag, cmTag, MeVTag, cmTag, cmTag, cmTag])
        (productTag [cmTag, cmTag])) ∧
    (buildProduct [ratioTag (productTag [MeVTag]) (productTag [cmTag]),
        productTag [cmTag, MeVTag, cmTag, cmTag, cmTag]]).bind
      (fun BC => buildProduct [ratioTag (productTag [MeVTag]) (productTag [cmTag]), BC]) =
      some (ratioTag (productTag [MeVTag, MeVTag, cmTag, MeVTag, cmTag, cmTag, cmTag])
        (productTag [cmTag, cmTag])) :=
  ⟨rfl, rfl⟩

/-- C26: for a normalized `X` and a normalized Ratio of `n` by `d`, whenever
`buildRatio<X, ratioTag<productTag<n...>, productTag<d...>>>` has a result,
`buildProduct<X, ratioTag<productTag<d...>, productTag<n...>>>` has the same
result. -/
theorem C26_divide_by_ratio_is_multiply_by_reciprocal (X : Tag) (n d : List Tag) (C : Tag)
    (hX : X.isNormal = true)
    (hR : (ratioTag (productTag n) (productTag d)).isNormal = true)
    (h : buildRatio [X, ratioTag (productTag n) (productTag d)] = some C) :
    buildProduct [X, ratioTag (productTag d) (productTag n)] = some C := by
  rcases Tag.isNormal_cases hX with ⟨x, rfl⟩ | ⟨xs, rfl, -⟩ | ⟨xn, xd, rfl, -, -⟩
  · rcases d with _ | ⟨d₁, _ | ⟨d₂, ds⟩⟩
    · rw [buildRatio_primitive_ratio, buildProduct_eq_none_of_length (by simp)] at h
      exact Option.noConfusion h
    · have hd : d₁.isPrimitive = true := by
        simp [Tag.isNormal, Tag.isPrimitive, Tag.isFlatProduct, Tag.isFlatRatio] at hR
        exact hR.2
      cases d₁ with
      | primitive p => rw [← h]; rfl
      | productTag _ => exact absurd hd (by simp [Tag.isPrimitive])
      | ratioTag _ _ => exact absurd hd (by simp [Tag.isPrimitive])
    · rw [buildRatio_primitive_ratio_eq_none x n (d₁ :: d₂ :: ds)
        (by simp only [List.length_cons]; omega)] at h
      exact Option.noConfusion h
  · rw [← h]; rfl
  · rw [← h]; rfl

/-- C26 at `anotherRatio / dEdx` of `test_units.cpp`, a Ratio of `MeV` by `cm`
divided by a Ratio of `MeV` by `cm`. -/
theorem C26_divide_by_ratio_is_multiply_by_reciprocal_witness :
    ((ratioTag (productTag [MeVTag]) (productTag [cmTag])).isNormal = true ∧
      buildRatio [ratioTag (productTag [MeVTag]) (productTag [cmTag]),
        ratioTag (productTag [MeVTag]) (productTag [cmTag])] =
        some (ratioTag (productTag [MeVTag, cmTag]) (productTag [cmTag, MeVTag]))) ∧
    buildProduct [ratioTag (productTag [MeVTag]) (productTag [cmTag]),
        ratioTag (productTag [cmTag]) (productTag [MeVTag])] =
      some (ratioTag (productTag [MeVTag, cmTag]) (productTag [cmTag, MeVTag])) :=
  ⟨⟨by decide, by decide⟩,
    C26_divide_by_ratio_is_multiply_by_reciprocal _ _ _ _ (by decide) (by decide) (by decide)⟩

/-- A declared unit divided by a Ratio: with one factor in the Ratio's
denominator the result is that of multiplying by the reciprocal; with two
there is no result, though the product with the reciprocal has one. -/
theorem buildRatio_primitive_by_ratio_against_reciprocal :
    buildRatio [cmTag, ratioTag (productTag [MeVTag]) (productTag [cmTag])] =
        buildProduct [cmTag, ratioTag (productTag [cmTag]) (productTag [MeVTag])] ∧
      buildProduct [cmTag, ratioTag (productTag [cmTag]) (productTag [MeVTag])] =
        some (ratioTag (productTag [cmTag, cmTag]) (productTag [MeVTag])) ∧
      buildRatio [cmTag, ratioTag (productTag [MeVTag]) (productTag [cmTag, cmTag])] = none ∧
      buildProduct [cmTag, ratioTag (productTag [cmTag, cmTag]) (productTag [MeVTag])] =
        some (ratioTag (productTag [cmTag, cmTag, cmTag]) (productTag [MeVTag])) := by
  decide

end units
